import Mathlib

/-!
Verification of the Kinemon game server (src/server.js) against its
natural-language specification.  The JavaScript source is shallowly embedded:
numbers become `ℚ`, timestamps become `ℕ` (milliseconds), JS `Map`s become
association lists that preserve insertion order, and nullable fields become
`Option`.  Each definition is translated from a named function or code block
of src/server.js; line numbers in the doc comments refer to that file.
-/

namespace Kinemon

/-- JS truncation toward zero, as used by the `%` operator on numbers. -/
def jsTrunc (x : ℚ) : ℤ := if 0 ≤ x then ⌊x⌋ else ⌈x⌉

/-- JS remainder `a % b` (fmod with truncation toward zero). -/
def jsMod (a b : ℚ) : ℚ := a - b * (jsTrunc (a / b) : ℚ)

/-- Math.sign. -/
def jsSign (x : ℚ) : ℚ := if 0 < x then 1 else if x < 0 then -1 else 0

/-- Association-list lookup, the embedding of `Map.get` / `Map.has`. -/
def lookup {α : Type} (l : List (ℕ × α)) (k : ℕ) : Option α :=
  (l.find? (fun kv => kv.1 = k)).map (fun kv => kv.2)

/-- Embedding of `Map.delete`. -/
def eraseKey {α : Type} (l : List (ℕ × α)) (k : ℕ) : List (ℕ × α) :=
  l.filter (fun kv => kv.1 ≠ k)

/-- Embedding of `Map.set`: replace in place when the key exists, else append
(JS `Map` preserves insertion order). -/
def setKey {α : Type} : List (ℕ × α) → ℕ → α → List (ℕ × α)
  | [], k, v => [(k, v)]
  | (k', v') :: t, k, v =>
      if k' = k then (k, v) :: t else (k', v') :: setKey t k v

/-! ## Session / connection layer (src/server.js lines 66-141, 2041-2120, 2587-2665)

The registry `rooms`, the `disconnectedPlayers` map, the `close` handler, the
periodic `cleanupExpiredDisconnections` sweep and the reconnection branch of
the `join` handler.  Player fields irrelevant to the session layer are
omitted; `ws` is the live-connection reference (an abstract connection id),
cleared on disconnect. -/

/-- `RECONNECT_GRACE_PERIOD_MS` (src/server.js:22). -/
def RECONNECT_GRACE_PERIOD_MS : ℕ := 60000

structure SessionPlayer where
  id : ℕ
  score : ℕ
  team : Option ℕ
  systemRole : Option ℕ
  x : ℚ
  y : ℚ
  ws : Option ℕ
  sessionToken : Option ℕ
  deriving DecidableEq, Repr

structure SessionRoom where
  gameType : ℕ
  players : List (ℕ × SessionPlayer)
  deriving DecidableEq, Repr

/-- One entry of `disconnectedPlayers`: sessionToken ↦ this record.  The
source also snapshots a `playerData` copy that is only used for logging; it is
omitted here. -/
structure Pending where
  roomId : ℕ
  playerId : ℕ
  disconnectTime : ℕ
  deriving DecidableEq, Repr

/-- The cross-request mutable server state: the room registry, the pending
reconnect map, and the set of room ids that currently have a display
(spectator) client attached — the embedding of the `hasDisplayClient` scan of
`wss.clients` (src/server.js:2670-2677). -/
structure ServerState where
  rooms : List (ℕ × SessionRoom)
  disconnectedPlayers : List (ℕ × Pending)
  displayRooms : List ℕ
  deriving DecidableEq, Repr

/-- Body of the `for (const [token, data] of disconnectedPlayers.entries())`
loop of `cleanupExpiredDisconnections` (src/server.js:121-137). -/
def cleanupStep (now : ℕ) (st : ServerState) (tok : ℕ) (d : Pending) : ServerState :=
  if now - d.disconnectTime > RECONNECT_GRACE_PERIOD_MS then
    match lookup st.rooms d.roomId with
    | some room =>
        if (lookup room.players d.playerId).isSome then
          { rooms := setKey st.rooms d.roomId { room with players := eraseKey room.players d.playerId },
            disconnectedPlayers := eraseKey st.disconnectedPlayers tok,
            displayRooms := st.displayRooms }
        else { st with disconnectedPlayers := eraseKey st.disconnectedPlayers tok }
    | none => { st with disconnectedPlayers := eraseKey st.disconnectedPlayers tok }
  else st

def cleanupAux (now : ℕ) : List (ℕ × Pending) → ServerState → ServerState
  | [], st => st
  | (tok, d) :: rest, st => cleanupAux now rest (cleanupStep now st tok d)

/-- `cleanupExpiredDisconnections` (src/server.js:120-137), the sweep run every
10 seconds: every pending entry whose grace period has elapsed is removed, and
with it the player record inside its room.  Note that the sweep never removes
a room from the registry. -/
def cleanupExpiredDisconnections (now : ℕ) (s : ServerState) : ServerState :=
  cleanupAux now s.disconnectedPlayers s

/-- The `ws.on('close')` handler (src/server.js:2587-2665) for a connection
bound to player `wsPlayerId` in room `wsRoomId`: if the player is still in the
room, save a pending-reconnect entry (when it has a session token), clear its
connection reference and keep it in the room; then delete the room only if it
has no player records at all and no display client. -/
def handleClose (now wsPlayerId wsRoomId : ℕ) (s : ServerState) : ServerState :=
  match lookup s.rooms wsRoomId with
  | none => s
  | some room =>
      let s1 :=
        match lookup room.players wsPlayerId with
        | some player =>
            let s' :=
              match player.sessionToken with
              | some tok =>
                  let dp := setKey s.disconnectedPlayers tok ⟨wsRoomId, wsPlayerId, now⟩
                  { s with disconnectedPlayers := dp }
              | none => s
            let disconnected := { player with ws := none }
            let room' := { room with players := setKey room.players wsPlayerId disconnected }
            { s' with rooms := setKey s'.rooms wsRoomId room' }
        | none => s
      match lookup s1.rooms wsRoomId with
      | some room' =>
          if room'.players.length = 0 ∧ wsRoomId ∉ s1.displayRooms then
            { s1 with rooms := eraseKey s1.rooms wsRoomId }
          else s1
      | none => s1

/-- Result of the `join` message handler. -/
structure JoinResult where
  state : ServerState
  reconnected : Bool
  errored : Bool
  boundPlayerId : Option ℕ
  deriving DecidableEq, Repr

/-- Game-type tags used by the capacity checks (`pong` = 2 players,
`ballz` = 1 player, src/server.js:2092-2107). -/
def GT_PONG : ℕ := 1
def GT_BALLZ : ℕ := 4

/-- The normal join flow (src/server.js:2082-2227): create the room when
absent, enforce the per-game-type caps, then add a brand-new player with a
fresh id, fresh session token and score 0.  The fresh id and token
(`Date.now() + '-' + Math.random()` and `crypto.randomBytes`) and the
game-specific spawn data are passed as parameters. -/
def normalJoin (roomId gameType wsId freshPlayerId freshToken : ℕ)
    (initX initY : ℚ) (initTeam initRole : Option ℕ) (s : ServerState) : JoinResult :=
  let s :=
    if (lookup s.rooms roomId).isNone then
      { s with rooms := setKey s.rooms roomId ⟨gameType, []⟩ }
    else s
  match lookup s.rooms roomId with
  | none => ⟨s, false, true, none⟩
  | some room =>
      if room.gameType = GT_PONG ∧ room.players.length ≥ 2 then
        ⟨s, false, true, none⟩
      else if room.gameType = GT_BALLZ ∧ room.players.length ≥ 1 then
        ⟨s, false, true, none⟩
      else
        let player : SessionPlayer :=
          ⟨freshPlayerId, 0, initTeam, initRole, initX, initY,
            some wsId, some freshToken⟩
        let room' := { room with players := setKey room.players freshPlayerId player }
        ⟨{ s with rooms := setKey s.rooms roomId room' }, false, false, some freshPlayerId⟩

/-- The `join` message handler (src/server.js:2033-2227).  When a session
token is presented and a live pending entry exists for it, the reconnection
branch (lines 2041-2079) re-binds the new connection to the existing player
record and consumes the pending entry; note that this branch performs no check
of the elapsed time.  Otherwise the normal join flow runs. -/
def handleJoin (roomId gameType : ℕ) (sessionToken : Option ℕ)
    (wsId freshPlayerId freshToken : ℕ) (initX initY : ℚ)
    (initTeam initRole : Option ℕ) (s : ServerState) : JoinResult :=
  match sessionToken with
  | some tok =>
      match lookup s.disconnectedPlayers tok with
      | some d =>
          match lookup s.rooms d.roomId with
          | some room =>
              match lookup room.players d.playerId with
              | some player =>
                  let player' := { player with ws := some wsId }
                  let room' := { room with players := setKey room.players d.playerId player' }
                  let s' := { s with
                    rooms := setKey s.rooms d.roomId room',
                    disconnectedPlayers := eraseKey s.disconnectedPlayers tok }
                  ⟨s', true, false, some d.playerId⟩
              | none =>
                  normalJoin roomId gameType wsId freshPlayerId freshToken
                    initX initY initTeam initRole
                    { s with disconnectedPlayers := eraseKey s.disconnectedPlayers tok }
          | none =>
              normalJoin roomId gameType wsId freshPlayerId freshToken
                initX initY initTeam initRole
                { s with disconnectedPlayers := eraseKey s.disconnectedPlayers tok }
      | none =>
          normalJoin roomId gameType wsId freshPlayerId freshToken
            initX initY initTeam initRole s
  | none =>
      normalJoin roomId gameType wsId freshPlayerId freshToken
        initX initY initTeam initRole s

/-! ### Association-list lemmas -/

theorem lookup_cons {α : Type} (a : ℕ) (b : α) (t : List (ℕ × α)) (k : ℕ) :
    lookup ((a, b) :: t) k = if a = k then some b else lookup t k := by
  by_cases h : a = k <;> simp [lookup, List.find?, h]

theorem lookup_setKey_self {α : Type} (l : List (ℕ × α)) (k : ℕ) (v : α) :
    lookup (setKey l k v) k = some v := by
  induction l with
  | nil => simp [setKey, lookup, List.find?]
  | cons hd t ih =>
      obtain ⟨a, b⟩ := hd
      by_cases h : a = k
      · simp [setKey, h, lookup_cons]
      · simp [setKey, h, lookup_cons, ih]

theorem lookup_setKey_ne {α : Type} (l : List (ℕ × α)) (k k' : ℕ) (v : α)
    (h : k' ≠ k) : lookup (setKey l k v) k' = lookup l k' := by
  have h' : ¬ k = k' := fun hk => h hk.symm
  induction l with
  | nil => simp [setKey, lookup_cons, h']
  | cons hd t ih =>
      obtain ⟨a, b⟩ := hd
      by_cases ha : a = k
      · subst ha
        simp [setKey, lookup_cons, h']
      · simp [setKey, ha, lookup_cons, ih]

theorem eraseKey_cons {α : Type} (a : ℕ) (b : α) (t : List (ℕ × α)) (k : ℕ) :
    eraseKey ((a, b) :: t) k =
      if a = k then eraseKey t k else (a, b) :: eraseKey t k := by
  by_cases h : a = k <;> simp [eraseKey, List.filter_cons, h]

theorem lookup_eraseKey_self {α : Type} (l : List (ℕ × α)) (k : ℕ) :
    lookup (eraseKey l k) k = none := by
  induction l with
  | nil => rfl
  | cons hd t ih =>
      obtain ⟨a, b⟩ := hd
      rw [eraseKey_cons]
      by_cases h : a = k
      · simpa [h] using ih
      · simpa [h, lookup_cons] using ih

theorem lookup_eraseKey_ne {α : Type} (l : List (ℕ × α)) (k k' : ℕ)
    (h : k' ≠ k) : lookup (eraseKey l k) k' = lookup l k' := by
  induction l with
  | nil => rfl
  | cons hd t ih =>
      obtain ⟨a, b⟩ := hd
      rw [eraseKey_cons]
      by_cases ha : a = k
      · subst ha
        have h' : ¬ a = k' := fun hk => h hk.symm
        simp [lookup_cons, h', ih]
      · simp [ha, lookup_cons, ih]

theorem lookup_eraseKey_none {α : Type} (l : List (ℕ × α)) (k k' : ℕ)
    (h : lookup l k' = none) : lookup (eraseKey l k) k' = none := by
  by_cases hk : k' = k
  · subst hk; exact lookup_eraseKey_self l _
  · rw [lookup_eraseKey_ne l k k' hk]; exact h

theorem setKey_ne_nil {α : Type} (l : List (ℕ × α)) (k : ℕ) (v : α) :
    setKey l k v ≠ [] := by
  cases l with
  | nil => simp [setKey]
  | cons hd t =>
      obtain ⟨a, b⟩ := hd
      by_cases h : a = k <;> simp [setKey, h]

/-! ### The sweep never removes a room and is inert within the grace window -/

theorem cleanupStep_rooms_isSome (now tok rid : ℕ) (d : Pending) (st : ServerState)
    (h : (lookup st.rooms rid).isSome) :
    (lookup (cleanupStep now st tok d).rooms rid).isSome := by
  unfold cleanupStep
  split
  · rcases hroom : lookup st.rooms d.roomId with _ | room
    · simpa [hroom] using h
    · simp only [hroom]
      split
      · by_cases hrid : rid = d.roomId
        · subst hrid; simp [lookup_setKey_self]
        · simpa [lookup_setKey_ne _ _ _ _ hrid] using h
      · simpa using h
  · exact h

theorem cleanupAux_rooms_isSome (now rid : ℕ) (l : List (ℕ × Pending)) :
    ∀ st : ServerState, (lookup st.rooms rid).isSome →
      (lookup (cleanupAux now l st).rooms rid).isSome := by
  induction l with
  | nil => intro st h; simpa [cleanupAux] using h
  | cons hd t ih =>
      intro st h
      obtain ⟨tok, d⟩ := hd
      exact ih _ (cleanupStep_rooms_isSome now tok rid d st h)

theorem cleanupStep_dp_none (now tok tok' : ℕ) (d : Pending) (st : ServerState)
    (h : lookup st.disconnectedPlayers tok' = none) :
    lookup (cleanupStep now st tok d).disconnectedPlayers tok' = none := by
  unfold cleanupStep
  split
  · split
    · split
      · exact lookup_eraseKey_none _ _ _ h
      · exact lookup_eraseKey_none _ _ _ h
    · exact lookup_eraseKey_none _ _ _ h
  · exact h

theorem cleanupAux_dp_none (now tok' : ℕ) (l : List (ℕ × Pending)) :
    ∀ st : ServerState, lookup st.disconnectedPlayers tok' = none →
      lookup (cleanupAux now l st).disconnectedPlayers tok' = none := by
  induction l with
  | nil => intro st h; simpa [cleanupAux] using h
  | cons hd t ih =>
      intro st h
      obtain ⟨tok, d⟩ := hd
      exact ih _ (cleanupStep_dp_none now tok tok' d st h)

theorem cleanupAux_removes_token (now tok : ℕ) (l : List (ℕ × Pending)) :
    ∀ st : ServerState,
      (∀ d', (tok, d') ∈ l → now - d'.disconnectTime > RECONNECT_GRACE_PERIOD_MS) →
      (lookup st.disconnectedPlayers tok = none ∨ ∃ d', (tok, d') ∈ l) →
      lookup (cleanupAux now l st).disconnectedPlayers tok = none := by
  induction l with
  | nil =>
      intro st _ hmem
      rcases hmem with h | ⟨d', hd'⟩
      · simpa [cleanupAux] using h
      · simp at hd'
  | cons hd t ih =>
      intro st hexp hmem
      obtain ⟨t0, d0⟩ := hd
      by_cases htok : t0 = tok
      · subst htok
        have hexp0 : now - d0.disconnectTime > RECONNECT_GRACE_PERIOD_MS :=
          hexp d0 (List.mem_cons_self _ _)
        have hnone : lookup (cleanupStep now st t0 d0).disconnectedPlayers t0 = none := by
          unfold cleanupStep
          simp only [if_pos hexp0]
          split
          · split
            · exact lookup_eraseKey_self _ _
            · exact lookup_eraseKey_self _ _
          · exact lookup_eraseKey_self _ _
        exact cleanupAux_dp_none now t0 t _ hnone
      · apply ih
        · intro d' hd'; exact hexp d' (List.mem_cons_of_mem _ hd')
        · rcases hmem with h | ⟨d', hd'⟩
          · exact Or.inl (cleanupStep_dp_none now t0 tok d0 st h)
          · rcases List.mem_cons.mp hd' with heq | hmem'
            · exact absurd (congrArg Prod.fst heq).symm htok
            · exact Or.inr ⟨d', hmem'⟩

theorem cleanupAux_inert (now : ℕ) (l : List (ℕ × Pending)) :
    ∀ st : ServerState,
      (∀ tok d, (tok, d) ∈ l → now - d.disconnectTime ≤ RECONNECT_GRACE_PERIOD_MS) →
      cleanupAux now l st = st := by
  induction l with
  | nil => intro st _; rfl
  | cons hd t ih =>
      intro st h
      obtain ⟨tok, d⟩ := hd
      have hd0 : ¬ (now - d.disconnectTime > RECONNECT_GRACE_PERIOD_MS) := by
        have := h tok d (List.mem_cons_self _ _)
        omega
      have hstep : cleanupStep now st tok d = st := by
        unfold cleanupStep; simp [hd0]
      rw [cleanupAux, hstep]
      exact ih st (fun tok' d' htd => h tok' d' (List.mem_cons_of_mem _ htd))

/-! ### Claims C1 and C2 -/

/-- C1, counterexample.  A room holding one pending-reconnect player whose
grace period has expired, and no display client: the sweep
(`cleanupExpiredDisconnections`) deletes the pending entry and the player
record, after which the room has zero live players, zero pending players and
zero spectators — yet it is still present in the registry.  This refutes the
claim that a room reaching the fully-empty state is removed: the sweep never
deletes rooms, and no later close event will fire for the already-removed
player's dead connection. -/
theorem c1_room_removal_counterexample :
    lookup ((cleanupExpiredDisconnections 60001
        (⟨[(1, ⟨2, [(5, ⟨5, 42, some 0, some 2, 10, 20, none, some 9⟩)]⟩)],
          [(9, ⟨1, 5, 0⟩)], []⟩ : ServerState)).rooms) 1 = some ⟨2, []⟩ ∧
    (cleanupExpiredDisconnections 60001
        (⟨[(1, ⟨2, [(5, ⟨5, 42, some 0, some 2, 10, 20, none, some 9⟩)]⟩)],
          [(9, ⟨1, 5, 0⟩)], []⟩ : ServerState)).disconnectedPlayers = [] ∧
    (cleanupExpiredDisconnections 60001
        (⟨[(1, ⟨2, [(5, ⟨5, 42, some 0, some 2, 10, 20, none, some 9⟩)]⟩)],
          [(9, ⟨1, 5, 0⟩)], []⟩ : ServerState)).displayRooms = [] := by
  decide

/-- C1, amended: (i) the sweep is inert while every pending entry is within
its grace window, so a room persists as long as any pending entry is in
grace; (ii) the sweep never removes any room from the registry — even one
that it has just emptied completely; (iii) the close handler removes a room
exactly when the closing connection's player record is already gone from it,
it has no player records (live or pending, expired or not), and no display
client; (iv) a room that still holds any player record survives every close
event.  (Migration aside, these are the only removal sites.) -/
theorem c1_room_removal_amended :
    (∀ (now : ℕ) (s : ServerState),
      (∀ tok d, (tok, d) ∈ s.disconnectedPlayers →
        now - d.disconnectTime ≤ RECONNECT_GRACE_PERIOD_MS) →
      cleanupExpiredDisconnections now s = s) ∧
    (∀ (now rid : ℕ) (s : ServerState),
      (lookup s.rooms rid).isSome →
      (lookup (cleanupExpiredDisconnections now s).rooms rid).isSome) ∧
    (∀ (now pid rid : ℕ) (s : ServerState) (room : SessionRoom),
      lookup s.rooms rid = some room →
      (lookup (handleClose now pid rid s).rooms rid = none ↔
        (room.players = [] ∧ rid ∉ s.displayRooms))) ∧
    (∀ (now pid rid rid' : ℕ) (s : ServerState) (room : SessionRoom),
      lookup s.rooms rid = some room → room.players ≠ [] →
      (lookup (handleClose now pid rid' s).rooms rid).isSome) := by
  refine ⟨?_, ?_, ?_, ?_⟩
  · intro now s h
    exact cleanupAux_inert now s.disconnectedPlayers s h
  · intro now rid s h
    exact cleanupAux_rooms_isSome now rid s.disconnectedPlayers s h
  · intro now pid rid s room h
    unfold handleClose
    rw [h]
    rcases hp : lookup room.players pid with _ | player
    · simp only [hp, h]
      by_cases hc : room.players.length = 0 ∧ rid ∉ s.displayRooms
      · rw [if_pos hc]
        simp only [lookup_eraseKey_self, true_iff]
        exact ⟨List.length_eq_zero.mp hc.1, hc.2⟩
      · rw [if_neg hc]
        rw [h]
        constructor
        · intro hnone; cases hnone
        · intro hr
          exact absurd ⟨List.length_eq_zero.mpr hr.1, hr.2⟩ hc
    · simp only [hp]
      rcases htok : player.sessionToken with _ | tok
      all_goals
        simp only [lookup_setKey_self]
        rw [if_neg]
        · simp only [lookup_setKey_self]
          constructor
          · intro hnone; cases hnone
          · intro hr
            rw [hr.1] at hp
            cases hp
        · intro hcontra
          exact setKey_ne_nil _ _ _ (List.length_eq_zero.mp hcontra.1)
  · intro now pid rid rid' s room h hne
    by_cases hrr : rid = rid'
    · subst hrr
      unfold handleClose
      rw [h]
      rcases hp : lookup room.players pid with _ | player
      · simp only [hp, h]
        rw [if_neg]
        · simp [h]
        · intro hcontra
          exact hne (List.length_eq_zero.mp hcontra.1)
      · simp only [hp]
        rcases htok : player.sessionToken with _ | tok
        all_goals
          simp only [lookup_setKey_self]
          rw [if_neg]
          · simp [lookup_setKey_self]
          · intro hcontra
            exact setKey_ne_nil _ _ _ (List.length_eq_zero.mp hcontra.1)
    · have hrr' : rid ≠ rid' := hrr
      unfold handleClose
      rcases h2 : lookup s.rooms rid' with _ | room0
      · simp [h]
      · rcases hp : lookup room0.players pid with _ | player
        · simp only [hp, h2]
          split
          · simp [lookup_eraseKey_ne _ _ _ hrr', h]
          · simp [h]
        · simp only [hp]
          rcases htok : player.sessionToken with _ | tok
          all_goals
            simp only [lookup_setKey_self]
            split
            · simp [lookup_eraseKey_ne _ _ _ hrr', lookup_setKey_ne _ _ _ _ hrr', h]
            · simp [lookup_setKey_ne _ _ _ _ hrr', h]

/-- C1, witness for the amended theorem: a concrete pending entry 50 ms after
disconnect is within the grace window, so the sweep leaves the state — room,
player record and pending entry — untouched. -/
theorem c1_room_removal_amended_witness :
    cleanupExpiredDisconnections 100
      (⟨[(1, ⟨2, [(5, ⟨5, 42, some 0, some 2, 10, 20, none, some 9⟩)]⟩)],
        [(9, ⟨1, 5, 50⟩)], []⟩ : ServerState) =
      ⟨[(1, ⟨2, [(5, ⟨5, 42, some 0, some 2, 10, 20, none, some 9⟩)]⟩)],
        [(9, ⟨1, 5, 50⟩)], []⟩ :=
  c1_room_removal_amended.1 100 _ (by
    intro tok d hd
    have hd' : tok = 9 ∧ d = ⟨1, 5, 50⟩ := by simpa using hd
    rcases hd' with ⟨h1, h2⟩
    subst h2
    decide)

/-- C2, counterexample.  Player 5 disconnected at time 0 with session token 9;
the grace period ends at time 60000.  The `join` reconnection branch
(src/server.js:2041-2079) consults only membership in `disconnectedPlayers`
and never the elapsed time, so as long as the 10-second sweep has not yet run,
a token presented after the grace period has elapsed still re-binds the old
player record (score 42 preserved, same player id) instead of creating a
brand-new identity, contrary to the claim. -/
theorem c2_reconnect_counterexample :
    (handleJoin 1 2 (some 9) 77 1001 1002 0 0 none none
      (⟨[(1, ⟨2, [(5, ⟨5, 42, some 0, some 2, 10, 20, none, some 9⟩)]⟩)],
        [(9, ⟨1, 5, 0⟩)], []⟩ : ServerState)).reconnected = true ∧
    (handleJoin 1 2 (some 9) 77 1001 1002 0 0 none none
      (⟨[(1, ⟨2, [(5, ⟨5, 42, some 0, some 2, 10, 20, none, some 9⟩)]⟩)],
        [(9, ⟨1, 5, 0⟩)], []⟩ : ServerState)).boundPlayerId = some 5 ∧
    lookup (handleJoin 1 2 (some 9) 77 1001 1002 0 0 none none
      (⟨[(1, ⟨2, [(5, ⟨5, 42, some 0, some 2, 10, 20, none, some 9⟩)]⟩)],
        [(9, ⟨1, 5, 0⟩)], []⟩ : ServerState)).state.rooms 1 =
      some ⟨2, [(5, ⟨5, 42, some 0, some 2, 10, 20, some 77, some 9⟩)]⟩ := by
  decide

/-- C2, amended: (i) whenever the pending entry is still present (the join
path checks nothing else), reconnection re-binds the connection to the
existing player record — every field (score, team, role, position) except the
connection reference is exactly as the session layer left it — and consumes
the pending entry; (ii) once the periodic sweep has run after the grace
period elapsed, the entry is gone; (iii) a join whose token has no pending
entry is exactly the normal join flow; (iv) the normal join flow, when the
room has capacity, creates a brand-new player with a fresh id, score 0 and a
fresh session token. -/
theorem c2_reconnect_amended :
    (∀ (s : ServerState) (tok wsId rid gt fpid ftok : ℕ) (ix iy : ℚ)
        (it ir : Option ℕ) (d : Pending) (room : SessionRoom) (player : SessionPlayer),
      lookup s.disconnectedPlayers tok = some d →
      lookup s.rooms d.roomId = some room →
      lookup room.players d.playerId = some player →
      (handleJoin rid gt (some tok) wsId fpid ftok ix iy it ir s).reconnected = true ∧
      (handleJoin rid gt (some tok) wsId fpid ftok ix iy it ir s).boundPlayerId = some d.playerId ∧
      (∃ room', lookup (handleJoin rid gt (some tok) wsId fpid ftok ix iy it ir s).state.rooms d.roomId = some room' ∧
        lookup room'.players d.playerId = some { player with ws := some wsId }) ∧
      lookup (handleJoin rid gt (some tok) wsId fpid ftok ix iy it ir s).state.disconnectedPlayers tok = none) ∧
    (∀ (now tok : ℕ) (s : ServerState) (d : Pending),
      (tok, d) ∈ s.disconnectedPlayers →
      (∀ d', (tok, d') ∈ s.disconnectedPlayers →
        now - d'.disconnectTime > RECONNECT_GRACE_PERIOD_MS) →
      lookup (cleanupExpiredDisconnections now s).disconnectedPlayers tok = none) ∧
    (∀ (s : ServerState) (rid gt tok wsId fpid ftok : ℕ) (ix iy : ℚ) (it ir : Option ℕ),
      lookup s.disconnectedPlayers tok = none →
      handleJoin rid gt (some tok) wsId fpid ftok ix iy it ir s =
        normalJoin rid gt wsId fpid ftok ix iy it ir s) ∧
    (∀ (s : ServerState) (rid gt wsId fpid ftok : ℕ) (ix iy : ℚ)
        (it ir : Option ℕ) (room : SessionRoom),
      lookup s.rooms rid = some room →
      ¬(room.gameType = GT_PONG ∧ room.players.length ≥ 2) →
      ¬(room.gameType = GT_BALLZ ∧ room.players.length ≥ 1) →
      (normalJoin rid gt wsId fpid ftok ix iy it ir s).reconnected = false ∧
      (normalJoin rid gt wsId fpid ftok ix iy it ir s).boundPlayerId = some fpid ∧
      (∃ room', lookup (normalJoin rid gt wsId fpid ftok ix iy it ir s).state.rooms rid = some room' ∧
        lookup room'.players fpid =
          some ⟨fpid, 0, it, ir, ix, iy, some wsId, some ftok⟩)) := by
  refine ⟨?_, ?_, ?_, ?_⟩
  · intro s tok wsId rid gt fpid ftok ix iy it ir d room player h1 h2 h3
    refine ⟨?_, ?_, ⟨{ room with players := setKey room.players d.playerId { player with ws := some wsId } }, ?_, ?_⟩, ?_⟩
    · simp [handleJoin, h1, h2, h3]
    · simp [handleJoin, h1, h2, h3]
    · simp [handleJoin, h1, h2, h3, lookup_setKey_self]
    · exact lookup_setKey_self _ _ _
    · simp [handleJoin, h1, h2, h3, lookup_eraseKey_self]
  · intro now tok s d hmem hexp
    exact cleanupAux_removes_token now tok s.disconnectedPlayers s hexp (Or.inr ⟨d, hmem⟩)
  · intro s rid gt tok wsId fpid ftok ix iy it ir h
    unfold handleJoin
    simp only [h]
  · intro s rid gt wsId fpid ftok ix iy it ir room h hcap1 hcap2
    refine ⟨?_, ?_, ⟨{ room with players := setKey room.players fpid ⟨fpid, 0, it, ir, ix, iy, some wsId, some ftok⟩ }, ?_, ?_⟩⟩
    · simp [normalJoin, h, if_neg hcap1, if_neg hcap2]
    · simp [normalJoin, h, if_neg hcap1, if_neg hcap2]
    · simp [normalJoin, h, if_neg hcap1, if_neg hcap2, lookup_setKey_self]
    · exact lookup_setKey_self _ _ _

/-- C2, witness for the amended theorem: a concrete in-grace reconnection
re-binds player 5 with all fields preserved and consumes the token. -/
theorem c2_reconnect_amended_witness :
    (handleJoin 3 2 (some 9) 78 1001 1002 0 0 none none
      (⟨[(1, ⟨2, [(5, ⟨5, 42, some 0, some 2, 10, 20, none, some 9⟩)]⟩)],
        [(9, ⟨1, 5, 50⟩)], []⟩ : ServerState)).reconnected = true ∧
    (handleJoin 3 2 (some 9) 78 1001 1002 0 0 none none
      (⟨[(1, ⟨2, [(5, ⟨5, 42, some 0, some 2, 10, 20, none, some 9⟩)]⟩)],
        [(9, ⟨1, 5, 50⟩)], []⟩ : ServerState)).boundPlayerId = some 5 ∧
    (∃ room', lookup (handleJoin 3 2 (some 9) 78 1001 1002 0 0 none none
      (⟨[(1, ⟨2, [(5, ⟨5, 42, some 0, some 2, 10, 20, none, some 9⟩)]⟩)],
        [(9, ⟨1, 5, 50⟩)], []⟩ : ServerState)).state.rooms 1 = some room' ∧
      lookup room'.players 5 =
        some ⟨5, 42, some 0, some 2, 10, 20, some 78, some 9⟩) ∧
    lookup (handleJoin 3 2 (some 9) 78 1001 1002 0 0 none none
      (⟨[(1, ⟨2, [(5, ⟨5, 42, some 0, some 2, 10, 20, none, some 9⟩)]⟩)],
        [(9, ⟨1, 5, 50⟩)], []⟩ : ServerState)).state.disconnectedPlayers 9 = none :=
  c2_reconnect_amended.1
    (⟨[(1, ⟨2, [(5, ⟨5, 42, some 0, some 2, 10, 20, none, some 9⟩)]⟩)],
      [(9, ⟨1, 5, 50⟩)], []⟩ : ServerState)
    9 78 3 2 1001 1002 0 0 none none ⟨1, 5, 50⟩
    ⟨2, [(5, ⟨5, 42, some 0, some 2, 10, 20, none, some 9⟩)]⟩
    ⟨5, 42, some 0, some 2, 10, 20, none, some 9⟩
    (by decide) (by decide) (by decide)


/-! ## Room scheduler (src/server.js:404-408, 2872-2906)

`createRoom` installs `setInterval(() => gameLoop(roomId), 1000 / 60)`; each
invocation of `gameLoop` looks the room up, dispatches to the game engine
(`updatePong` / `updatePushers` / `updateShip` / `ballzUpdate` /
`updateSnake`) and then performs the 30 Hz-throttled broadcast.  The body of
`gameLoop` contains no `try`/`catch` (the only catch in the file wraps the
message handler, src/server.js:2016, 2582-2585), so the embedding runs the
engine advance in an exception monad and sequences it without any recovery:
a fault raised by the engine escapes `gameLoop` into the timer callback. -/

structure TickRoom (α : Type) where
  engineState : α
  lastBroadcast : Option ℕ
  deriving DecidableEq, Repr

/-- `gameLoop` (src/server.js:2873-2906).  `advance` is the engine dispatch;
its body may throw (any JS statement can raise), represented by `Except ℕ`.
No branch of this function catches the fault. -/
def gameLoop {α : Type} (advance : α → Except ℕ α) (now : ℕ)
    (rooms : List (ℕ × TickRoom α)) (roomId : ℕ) :
    Except ℕ (List (ℕ × TickRoom α)) :=
  match lookup rooms roomId with
  | none => .ok rooms
  | some room => do
      let st ← advance room.engineState
      let room1 := { room with engineState := st }
      let room2 :=
        if room1.lastBroadcast.isNone ∨ now - room1.lastBroadcast.getD 0 ≥ 33 then
          { room1 with lastBroadcast := some now }
        else room1
      .ok (setKey rooms roomId room2)

/-- C3: a fault thrown while advancing a room's engine is NOT caught by the
tick path: `gameLoop` propagates it unchanged to its caller, the
`setInterval` scheduler.  In Node an exception escaping a timer callback is
an uncaught exception that terminates the whole process — halting every
other room's scheduler and the connection layer — rather than being caught,
logged and isolated to the faulting room as the specification requires.
(The message-handling path, by contrast, is wrapped in `try`/`catch` at
src/server.js:2016.) -/
theorem c3_tick_fault_not_caught {α : Type} (advance : α → Except ℕ α)
    (now : ℕ) (rooms : List (ℕ × TickRoom α)) (roomId : ℕ)
    (room : TickRoom α) (f : ℕ)
    (h1 : lookup rooms roomId = some room)
    (h2 : advance room.engineState = Except.error f) :
    gameLoop advance now rooms roomId = Except.error f := by
  simp [gameLoop, h1, h2, Bind.bind, Except.bind]

/-- C3, witness: a concrete room whose engine advance throws fault 7; the
fault escapes `gameLoop` uncaught. -/
theorem c3_tick_fault_not_caught_witness :
    gameLoop (fun _ : ℕ => Except.error 7) 0 [(0, ⟨0, none⟩)] 0 =
      Except.error 7 :=
  c3_tick_fault_not_caught (fun _ : ℕ => Except.error 7) 0 [(0, ⟨0, none⟩)] 0
    ⟨0, none⟩ 7 rfl rfl

/-! ## Snake engine (src/server.js:2908-3107, 3860-3959, constants 73-78)

Per-player body of `updateSnake`.  Real-number operations that Lean cannot
compute (`Math.PI`, `Math.cos`, `Math.sin`) are abstracted as the parameters
`piQ`, `cosQ`, `sinQ`: every theorem below holds for all values of these
parameters, in particular for any rational approximation of the true
functions, because the proved properties do not depend on them. -/

/-- `INITIAL_LENGTH` (src/server.js:74). -/
def INITIAL_LENGTH : ℕ := 7

/-- The per-player control schemes of the `switch` in `updateSnake`
(src/server.js:2952-3079).  `other` is the `default` case reached by any
unrecognized scheme string. -/
inductive ControlScheme where
  | rotation_smooth | rotation_linear | center_straight
  | nonlinear_a | nonlinear_b | fixed_updown
  | arrow_steering | arrow_instant | other
  deriving DecidableEq, Repr

/-- Output of the control-mapping switch: the turn contribution
`mappedDeviation` plus the (possibly rewritten, in the two arrow modes)
`angle` and `targetAngle`. -/
structure ControlOut where
  mappedDeviation : ℚ
  angle : ℚ
  targetAngle : ℚ
  deriving DecidableEq, Repr

/-- Closed form of the two `while` normalization loops of `arrow_steering`
(src/server.js:3040-3043): for `piQ > 0` the loops terminate and compute
exactly this value. -/
def wrapPi (piQ d : ℚ) : ℚ :=
  let k : ℤ := max ⌈(d - piQ) / (2 * piQ)⌉ 0
  let d1 := d - 2 * piQ * (k : ℚ)
  let m : ℤ := max ⌈(-piQ - d1) / (2 * piQ)⌉ 0
  d1 + 2 * piQ * (m : ℚ)

/-- The control-mapping `switch` of `updateSnake` (src/server.js:2944-3079),
from the current tilt, heading angle and target angle. -/
def snakeControlMapping (piQ : ℚ) (scheme : ControlScheme)
    (tilt angle targetAngle : ℚ) : ControlOut :=
  let tiltDeviation := (tilt - 1/2) * 2
  match scheme with
  | .rotation_smooth =>
      let absSmooth := |tiltDeviation|
      if absSmooth < 15/100 then ⟨0, angle, targetAngle⟩
      else
        let normalized := (absSmooth - 15/100) / (85/100)
        ⟨jsSign tiltDeviation * (normalized * normalized * (7/10)), angle, targetAngle⟩
  | .rotation_linear => ⟨tiltDeviation, angle, targetAngle⟩
  | .center_straight =>
      if |tiltDeviation| < 4/10 then ⟨0, angle, targetAngle⟩
      else
        let sign := jsSign tiltDeviation
        let absEdge := |tiltDeviation|
        let normalized := (absEdge - 4/10) / (6/10)
        ⟨sign * normalized, angle, targetAngle⟩
  | .nonlinear_a =>
      let absA := |tiltDeviation|
      if absA < 3/10 then ⟨0, angle, targetAngle⟩
      else
        let normalized := (absA - 3/10) / (7/10)
        ⟨jsSign tiltDeviation * (normalized * normalized), angle, targetAngle⟩
  | .nonlinear_b =>
      let absB := |tiltDeviation|
      if absB < 4/10 then ⟨0, angle, targetAngle⟩
      else
        let normalized := (absB - 4/10) / (6/10)
        ⟨jsSign tiltDeviation * (normalized * normalized * normalized), angle, targetAngle⟩
  | .fixed_updown =>
      if |tiltDeviation| < 15/100 then ⟨0, angle, targetAngle⟩
      else
        let a := jsMod (jsMod angle (2 * piQ) + 2 * piQ) (2 * piQ)
        let facingRight := a < piQ
        let tiltMagnitude := |tiltDeviation|
        let normalizedTilt := (tiltMagnitude - 15/100) / (85/100)
        if facingRight then ⟨tiltDeviation * normalizedTilt, angle, targetAngle⟩
        else ⟨-tiltDeviation * normalizedTilt, angle, targetAngle⟩
  | .arrow_steering =>
      let target := tilt * 2 * piQ
      let angleDiff := wrapPi piQ (target - angle)
      let a1 := angle + angleDiff * (15/100)
      let a2 := jsMod (jsMod a1 (2 * piQ) + 2 * piQ) (2 * piQ)
      ⟨0, a2, target⟩
  | .arrow_instant =>
      let target := tilt * 2 * piQ
      ⟨0, target, target⟩
  | .other => ⟨tiltDeviation * (7/10), angle, targetAngle⟩

/-- Snake player state.  `respawn` bundles `respawnCountdown` and
`respawnPosition`, which the source always sets and clears together
(src/server.js:3948-3952, 2935-2936). -/
structure SnakePlayer where
  alive : Bool
  score : ℕ
  tilt : ℚ
  angle : ℚ
  targetAngle : ℚ
  headX : ℚ
  headY : ℚ
  segments : List (ℚ × ℚ)
  controlScheme : ControlScheme
  respawn : Option (ℚ × ℚ × ℚ)
  deriving DecidableEq, Repr

/-- Snake room configuration (createRoom snake branch, src/server.js:389-401). -/
structure SnakeRoom where
  canvasW : ℚ
  canvasH : ℚ
  moveSpeed : ℚ
  turnSpeedMultiplier : ℚ
  segmentSize : ℚ
  growthSpeed : ℚ
  deriving DecidableEq, Repr

/-- Initial segment chain (src/server.js:2224-2229 and 666-672). -/
def initialSegments (room : SnakeRoom) (hx hy : ℚ) : List (ℚ × ℚ) :=
  (List.range INITIAL_LENGTH).map (fun (i : ℕ) => (hx - (i : ℚ) * room.segmentSize, hy))

/-- Respawn-countdown block at the top of the per-player loop of
`updateSnake` (src/server.js:2912-2940). -/
def snakeRespawnPhase (room : SnakeRoom) (p : SnakePlayer) : SnakePlayer :=
  match p.alive, p.respawn with
  | false, some (c, pos) =>
      let c' := c - 1/60
      if c' ≤ 0 then
        { p with
          alive := true, score := 0, angle := 0, targetAngle := 0,
          headX := pos.1, headY := pos.2,
          segments := initialSegments room pos.1 pos.2, respawn := none }
      else { p with respawn := some (c', pos.1, pos.2) }
  | _, _ => p

/-- Movement part of the per-player loop of `updateSnake`
(src/server.js:2942-3107): control mapping, rotation, head move, screen wrap,
head unshift and the gradual tail trim. -/
def snakeMovePhase (piQ : ℚ) (cosQ sinQ : ℚ → ℚ) (room : SnakeRoom)
    (p : SnakePlayer) : SnakePlayer :=
  if p.alive = false then p
  else
    let circleRadius := 3 * room.segmentSize
    let maxRotationSpeed := room.moveSpeed / circleRadius
    let out := snakeControlMapping piQ p.controlScheme p.tilt p.angle p.targetAngle
    let rotationSpeed := out.mappedDeviation * maxRotationSpeed * (12/5) * room.turnSpeedMultiplier
    let angle := out.angle + rotationSpeed
    let headX0 := p.headX + cosQ angle * room.moveSpeed
    let headY0 := p.headY + sinQ angle * room.moveSpeed
    let maxX := room.canvasW
    let maxY := room.canvasH - 40
    let headX1 := if headX0 < 0 then maxX - 1 else headX0
    let headX2 := if headX1 ≥ maxX then 0 else headX1
    let headY1 := if headY0 < 0 then maxY - 1 else headY0
    let headY2 := if headY1 ≥ maxY then 0 else headY1
    let segments0 := (headX2, headY2) :: p.segments
    let growthPerPizza := 3 * room.growthSpeed
    let segments1 :=
      if (segments0.length : ℚ) > (INITIAL_LENGTH : ℚ) + (p.score : ℚ) * growthPerPizza
      then segments0.dropLast else segments0
    { p with
      angle := angle, targetAngle := out.targetAngle,
      headX := headX2, headY := headY2, segments := segments1 }

/-- Per-player body of `updateSnake` (src/server.js:2908-3107). -/
def updateSnakePlayer (piQ : ℚ) (cosQ sinQ : ℚ → ℚ) (room : SnakeRoom)
    (p : SnakePlayer) : SnakePlayer :=
  snakeMovePhase piQ cosQ sinQ room (snakeRespawnPhase room p)

/-- The reachable per-player snake states, one constructor per source
operation that touches a snake player: join initialization
(src/server.js:2205-2230), the tick (`updateSnake` body), an input message
(`player.tilt = data.tilt`, 2311-2322), eating a pizza (`player.score++`,
3903), death by collision with another snake (alive := false, segments
cleared, 3-second respawn timer, 3940-3953), the manual `respawn` message
(2345-2377) and the `change_control` message (2379-2389).  Head positions
and collision geometry are universally quantified, which over-approximates
the true reachable set soundly. -/
inductive SnakeReachable (piQ : ℚ) (cosQ sinQ : ℚ → ℚ) (room : SnakeRoom) :
    SnakePlayer → Prop where
  | join : ∀ (scheme : ControlScheme) (hx hy : ℚ),
      SnakeReachable piQ cosQ sinQ room
        ⟨true, 0, 1/2, 0, 0, hx, hy, initialSegments room hx hy, scheme, none⟩
  | tick : ∀ {p : SnakePlayer}, SnakeReachable piQ cosQ sinQ room p →
      SnakeReachable piQ cosQ sinQ room (updateSnakePlayer piQ cosQ sinQ room p)
  | input : ∀ {p : SnakePlayer} (t : ℚ), SnakeReachable piQ cosQ sinQ room p →
      SnakeReachable piQ cosQ sinQ room { p with tilt := t }
  | eatPizza : ∀ {p : SnakePlayer}, SnakeReachable piQ cosQ sinQ room p →
      SnakeReachable piQ cosQ sinQ room { p with score := p.score + 1 }
  | die : ∀ {p : SnakePlayer} (px py : ℚ), SnakeReachable piQ cosQ sinQ room p →
      SnakeReachable piQ cosQ sinQ room
        { p with alive := false, segments := [], respawn := some (3, px, py) }
  | respawnMsg : ∀ {p : SnakePlayer} (scheme : ControlScheme) (hx hy : ℚ),
      SnakeReachable piQ cosQ sinQ room p →
      SnakeReachable piQ cosQ sinQ room
        { p with
          alive := true, score := 0, angle := 0, targetAngle := 0,
          headX := hx, headY := hy, segments := initialSegments room hx hy,
          controlScheme := scheme }
  | changeControl : ∀ {p : SnakePlayer} (scheme : ControlScheme),
      SnakeReachable piQ cosQ sinQ room p →
      SnakeReachable piQ cosQ sinQ room { p with controlScheme := scheme }

/-- `INITIAL_LENGTH + player.score * (3 * room.growthSpeed)`
(src/server.js:3103-3106). -/
def snakeSegmentBound (room : SnakeRoom) (score : ℕ) : ℚ :=
  (INITIAL_LENGTH : ℚ) + (score : ℚ) * (3 * room.growthSpeed)

theorem initialSegments_length (room : SnakeRoom) (hx hy : ℚ) :
    (initialSegments room hx hy).length = INITIAL_LENGTH := by
  unfold initialSegments
  rw [List.length_map, List.length_range]

theorem snakeTrim_length_le (b : ℚ) (hd : ℚ × ℚ) (tl : List (ℚ × ℚ))
    (h : (tl.length : ℚ) ≤ b) :
    (((if ((hd :: tl).length : ℚ) > b then (hd :: tl).dropLast
       else hd :: tl).length : ℚ)) ≤ b := by
  split
  · rw [List.length_dropLast, List.length_cons]
    simpa using h
  · rename_i hle
    rw [not_lt] at hle
    exact hle

theorem snakeMovePhase_segments_le (piQ : ℚ) (cosQ sinQ : ℚ → ℚ)
    (room : SnakeRoom) (p : SnakePlayer)
    (h : (p.segments.length : ℚ) ≤ snakeSegmentBound room p.score) :
    (((snakeMovePhase piQ cosQ sinQ room p).segments.length : ℚ) ≤
      snakeSegmentBound room (snakeMovePhase piQ cosQ sinQ room p).score) := by
  unfold snakeMovePhase
  rcases hb : p.alive with _ | _
  · rw [if_pos rfl]
    exact h
  · rw [if_neg (by decide)]
    simp only [snakeSegmentBound] at h ⊢
    exact snakeTrim_length_le _ _ _ h

theorem snakeRespawnPhase_segments_le (room : SnakeRoom) (p : SnakePlayer)
    (hg : 0 ≤ room.growthSpeed)
    (h : (p.segments.length : ℚ) ≤ snakeSegmentBound room p.score) :
    (((snakeRespawnPhase room p).segments.length : ℚ) ≤
      snakeSegmentBound room (snakeRespawnPhase room p).score) := by
  unfold snakeRespawnPhase
  rcases hb : p.alive with _ | _
  · rcases hr : p.respawn with _ | ⟨c, pos⟩
    · simpa using h
    · dsimp only
      split
      · simp [initialSegments_length, snakeSegmentBound, INITIAL_LENGTH]
      · simpa using h
  · simpa using h

/-- Segment-count invariant: every reachable snake player satisfies
`segments.length ≤ INITIAL_LENGTH + score * 3 * growthSpeed`, provided the
configured growth multiplier is non-negative (the documented values are
1, 2, 4, 8). -/
theorem snake_segment_invariant (piQ : ℚ) (cosQ sinQ : ℚ → ℚ)
    (room : SnakeRoom) (hg : 0 ≤ room.growthSpeed) (p : SnakePlayer)
    (hreach : SnakeReachable piQ cosQ sinQ room p) :
    (p.segments.length : ℚ) ≤ snakeSegmentBound room p.score := by
  induction hreach with
  | join scheme hx hy =>
      simp [initialSegments_length, snakeSegmentBound, INITIAL_LENGTH]
  | tick _ ih =>
      exact snakeMovePhase_segments_le _ _ _ _ _
        (snakeRespawnPhase_segments_le _ _ hg ih)
  | input t _ ih => simpa [snakeSegmentBound] using ih
  | eatPizza _ ih =>
      rename_i p' _
      simp only [snakeSegmentBound] at ih ⊢
      have h3 : 0 ≤ 3 * room.growthSpeed := by linarith
      push_cast
      nlinarith [ih]
  | die px py _ ih =>
      rename_i p' _
      simp only [snakeSegmentBound]
      have hs : (0 : ℚ) ≤ (p'.score : ℚ) := by positivity
      have h3 : 0 ≤ (p'.score : ℚ) * (3 * room.growthSpeed) := by
        apply mul_nonneg hs; linarith
      simp only [List.length_nil, Nat.cast_zero]
      norm_num [INITIAL_LENGTH]
      linarith
  | respawnMsg scheme hx hy _ ih =>
      simp [initialSegments_length, snakeSegmentBound, INITIAL_LENGTH]
  | changeControl scheme _ ih => simpa [snakeSegmentBound] using ih

/-- C4: for every reachable snake player (with a non-negative configured
growth multiplier) the segment count never exceeds
`INITIAL_LENGTH + score × 3 × growthSpeed`; consequently the claim's second
conjunct — that a tick strictly shrinks an above-bound chain — holds
vacuously on reachable states, since no reachable state is above the bound. -/
theorem c4_snake_segment_bound (piQ : ℚ) (cosQ sinQ : ℚ → ℚ)
    (room : SnakeRoom) (hg : 0 ≤ room.growthSpeed) (p : SnakePlayer)
    (hreach : SnakeReachable piQ cosQ sinQ room p) :
    (p.segments.length : ℚ) ≤ snakeSegmentBound room p.score ∧
    (snakeSegmentBound room p.score < (p.segments.length : ℚ) →
      ((updateSnakePlayer piQ cosQ sinQ room p).segments.length : ℚ) <
        (p.segments.length : ℚ)) := by
  have hinv := snake_segment_invariant piQ cosQ sinQ room hg p hreach
  exact ⟨hinv, fun hgt => absurd hinv (not_le.mpr hgt)⟩

/-- C4, witness: a freshly joined player in a default room satisfies the
bound (7 segments against a bound of 7). -/
theorem c4_snake_segment_bound_witness :
    (((⟨true, 0, 1/2, 0, 0, 300, 400,
        initialSegments ⟨600, 800, 9/5, 2, 15, 1⟩ 300 400,
        ControlScheme.arrow_instant, none⟩ : SnakePlayer).segments.length : ℚ) ≤
      snakeSegmentBound ⟨600, 800, 9/5, 2, 15, 1⟩ 0 ∧
    (snakeSegmentBound ⟨600, 800, 9/5, 2, 15, 1⟩ 0 <
        ((⟨true, 0, 1/2, 0, 0, 300, 400,
          initialSegments ⟨600, 800, 9/5, 2, 15, 1⟩ 300 400,
          ControlScheme.arrow_instant, none⟩ : SnakePlayer).segments.length : ℚ) →
      (((updateSnakePlayer 3 (fun _ => 1) (fun _ => 0) ⟨600, 800, 9/5, 2, 15, 1⟩
          ⟨true, 0, 1/2, 0, 0, 300, 400,
            initialSegments ⟨600, 800, 9/5, 2, 15, 1⟩ 300 400,
            ControlScheme.arrow_instant, none⟩).segments.length : ℚ) <
        ((⟨true, 0, 1/2, 0, 0, 300, 400,
          initialSegments ⟨600, 800, 9/5, 2, 15, 1⟩ 300 400,
          ControlScheme.arrow_instant, none⟩ : SnakePlayer).segments.length : ℚ)))) :=
  c4_snake_segment_bound 3 (fun _ => 1) (fun _ => 0) ⟨600, 800, 9/5, 2, 15, 1⟩
    (by norm_num) _ (SnakeReachable.join ControlScheme.arrow_instant 300 400)

/-- The dead-zone half-width of each input curve, read off the `switch`
(src/server.js:2952-3079): `rotation_smooth` and `fixed_updown` 0.15,
`center_straight` and `nonlinear_b` 0.4, `nonlinear_a` 0.3; the remaining
curves have no dead zone (width 0, so no input lies strictly inside it). -/
def deadZoneOf : ControlScheme → ℚ
  | .rotation_smooth => 15/100
  | .center_straight => 4/10
  | .nonlinear_a => 3/10
  | .nonlinear_b => 4/10
  | .fixed_updown => 15/100
  | _ => 0

/-- C6: for every control scheme, an input whose tilt deviation lies strictly
inside that scheme's dead zone contributes exactly zero turning on the tick:
the player's heading (and target heading) after `updateSnake` equals the
heading before.  For the schemes without a dead zone the hypothesis is
unsatisfiable, as the claim's "strictly inside" requires. -/
theorem c6_deadzone_zero_turn (piQ : ℚ) (cosQ sinQ : ℚ → ℚ)
    (room : SnakeRoom) (p : SnakePlayer) (halive : p.alive = true)
    (hdz : |(p.tilt - 1/2) * 2| < deadZoneOf p.controlScheme) :
    (updateSnakePlayer piQ cosQ sinQ room p).angle = p.angle ∧
    (updateSnakePlayer piQ cosQ sinQ room p).targetAngle = p.targetAngle := by
  have hp1 : snakeRespawnPhase room p = p := by
    unfold snakeRespawnPhase
    rw [halive]
  unfold updateSnakePlayer
  rw [hp1]
  unfold snakeMovePhase
  rw [halive]
  cases hcs : p.controlScheme
  all_goals rw [hcs] at hdz
  all_goals simp only [deadZoneOf] at hdz
  case rotation_linear => exact absurd hdz (not_lt.mpr (abs_nonneg _))
  case arrow_steering => exact absurd hdz (not_lt.mpr (abs_nonneg _))
  case arrow_instant => exact absurd hdz (not_lt.mpr (abs_nonneg _))
  case other => exact absurd hdz (not_lt.mpr (abs_nonneg _))
  all_goals
    simp only [snakeControlMapping, hcs, Bool.false_eq_true, if_false, hdz, if_true]
    constructor <;> ring_nf <;> simp

/-- C6, witness: a centered tilt (deviation 0) under `rotation_smooth` leaves
the heading unchanged. -/
theorem c6_deadzone_zero_turn_witness :
    (updateSnakePlayer 3 (fun _ => 1) (fun _ => 0) ⟨600, 800, 9/5, 2, 15, 1⟩
      ⟨true, 0, 1/2, 1, 2, 300, 400, [], ControlScheme.rotation_smooth, none⟩).angle = 1 ∧
    (updateSnakePlayer 3 (fun _ => 1) (fun _ => 0) ⟨600, 800, 9/5, 2, 15, 1⟩
      ⟨true, 0, 1/2, 1, 2, 300, 400, [], ControlScheme.rotation_smooth, none⟩).targetAngle = 2 :=
  c6_deadzone_zero_turn 3 (fun _ => 1) (fun _ => 0) ⟨600, 800, 9/5, 2, 15, 1⟩
    ⟨true, 0, 1/2, 1, 2, 300, 400, [], ControlScheme.rotation_smooth, none⟩
    rfl (by norm_num [deadZoneOf])

/-! ## Pong engine (src/server.js:204-219, 3144-3266)

The paddle-contact acceleration, the scoring section of `updatePong`, and
`resetBall`.  The two `Math.random()` draws of `resetBall` (serve direction
and vertical speed) are passed as parameters. -/

inductive PaddleSide where
  | left | right
  deriving DecidableEq, Repr

structure PongPlayer where
  id : ℕ
  side : PaddleSide
  score : ℕ
  paddleX : ℚ
  paddleY : ℚ
  deriving DecidableEq, Repr

/-- The pong ball (createRoom pong branch, src/server.js:204-214):
`baseSpeedX` is the creation-time speed, `maxSpeedX = baseSpeedX * 3`. -/
structure Ball where
  x : ℚ
  y : ℚ
  radius : ℚ
  speedX : ℚ
  speedY : ℚ
  baseSpeedX : ℚ
  maxSpeedX : ℚ
  deriving DecidableEq, Repr

structure PongRoom where
  players : List PongPlayer
  ball : Ball
  paddleSize : ℚ
  winScore : ℕ
  speedIncrease : ℕ
  canvasW : ℚ
  canvasH : ℚ
  gameStarted : Bool
  gameOver : Bool
  winner : Option ℕ
  deriving DecidableEq, Repr

/-- `speedIncrease === 1 ? 1.05 : speedIncrease === 2 ? 1.15 : 1.30`
(src/server.js:3163, 3183). -/
def increaseMultiplier (si : ℕ) : ℚ :=
  if si = 1 then 21/20 else if si = 2 then 23/20 else 13/10

/-- Paddle-collision body of `updatePong` for one player
(src/server.js:3152-3196): on contact the horizontal speed becomes
`min(|speedX| * increaseMultiplier, maxSpeedX)` (with the side's sign) and
the vertical speed is set from the hit position.  Cosmetic
`broadcastEffect` calls are omitted. -/
def pongPaddleHit (room : PongRoom) (ball : Ball) (p : PongPlayer) : Ball :=
  let paddleWidth : ℚ := 10
  match p.side with
  | .left =>
      if ball.x - ball.radius < p.paddleX + paddleWidth ∧ ball.y > p.paddleY ∧
          ball.y < p.paddleY + room.paddleSize ∧ ball.speedX < 0 then
        let increaseMult := increaseMultiplier room.speedIncrease
        let accelerated := |ball.speedX| * increaseMult
        let hitPos := (ball.y - p.paddleY) / room.paddleSize
        { ball with
          speedX := min accelerated ball.maxSpeedX,
          speedY := (hitPos - 1/2) * 10 }
      else ball
  | .right =>
      if ball.x + ball.radius > p.paddleX ∧ ball.y > p.paddleY ∧
          ball.y < p.paddleY + room.paddleSize ∧ ball.speedX > 0 then
        let increaseMult := increaseMultiplier room.speedIncrease
        let accelerated := |ball.speedX| * increaseMult
        let hitPos := (ball.y - p.paddleY) / room.paddleSize
        { ball with
          speedX := -(min accelerated ball.maxSpeedX),
          speedY := (hitPos - 1/2) * 10 }
      else ball

/-- `resetBall` (src/server.js:3259-3266): recenter, horizontal speed back to
`baseSpeedX` with a random direction, random vertical speed.  `direction`
stands for `Math.random() > 0.5` and `randY` for `(Math.random() - 0.5) * 8`. -/
def resetBall (room : PongRoom) (direction : Bool) (randY : ℚ) : PongRoom :=
  let ball := room.ball
  let ball' := { ball with
    x := room.canvasW / 2, y := room.canvasH / 2,
    speedX := ball.baseSpeedX * (if direction then 1 else -1),
    speedY := randY }
  { room with ball := ball' }

/-- Mutation of the first list element satisfying a predicate (the source
mutates the single object returned by `players.find(...)`). -/
def updateFirst {α : Type} (pred : α → Bool) (f : α → α) : List α → List α
  | [] => []
  | a :: t => if pred a then f a :: t else a :: updateFirst pred f t

/-- Scoring section of `updatePong` (src/server.js:3199-3256): when the ball
exits on the left the right player scores (and symmetrically); if the scorer
reaches `winScore`, the room enters game-over WITHOUT resetting the ball;
otherwise `resetBall` runs. -/
def pongScoreStep (room : PongRoom) (direction : Bool) (randY : ℚ) : PongRoom :=
  if room.ball.x < 0 then
    match room.players.find? (fun p => p.side == PaddleSide.right) with
    | some rightPlayer =>
        let players' := updateFirst (fun p => p.side == PaddleSide.right)
          (fun p => { p with score := p.score + 1 }) room.players
        let newScore := rightPlayer.score + 1
        let room' := { room with players := players' }
        if newScore ≥ room'.winScore then
          { room' with winner := some rightPlayer.id, gameOver := true }
        else resetBall room' direction randY
    | none => resetBall room direction randY
  else if room.ball.x > room.canvasW then
    match room.players.find? (fun p => p.side == PaddleSide.left) with
    | some leftPlayer =>
        let players' := updateFirst (fun p => p.side == PaddleSide.left)
          (fun p => { p with score := p.score + 1 }) room.players
        let newScore := leftPlayer.score + 1
        let room' := { room with players := players' }
        if newScore ≥ room'.winScore then
          { room' with winner := some leftPlayer.id, gameOver := true }
        else resetBall room' direction randY
    | none => resetBall room direction randY
  else room

theorem increaseMultiplier_ge_one (si : ℕ) : 1 ≤ increaseMultiplier si := by
  unfold increaseMultiplier
  split_ifs <;> norm_num

/-- C5, counterexample.  The right player stands at `winScore - 1`; the ball
exits left at an elevated speed 2 (base speed 0.8).  The score is awarded
and the match ends, but — contrary to the claim that the ball's speed is
reset to base speed immediately after ANY score — `resetBall` is skipped on
a match-winning score: the ball keeps speed 2. -/
theorem c5_pong_reset_counterexample :
    (pongScoreStep
      ⟨[⟨1, PaddleSide.left, 0, 20, 100⟩, ⟨2, PaddleSide.right, 10, 570, 100⟩],
        ⟨-1, 300, 8, -2, 1, 4/5, 12/5⟩, 100, 11, 2, 600, 800, true, false, none⟩
      true 0).gameOver = true ∧
    (pongScoreStep
      ⟨[⟨1, PaddleSide.left, 0, 20, 100⟩, ⟨2, PaddleSide.right, 10, 570, 100⟩],
        ⟨-1, 300, 8, -2, 1, 4/5, 12/5⟩, 100, 11, 2, 600, 800, true, false, none⟩
      true 0).winner = some 2 ∧
    (pongScoreStep
      ⟨[⟨1, PaddleSide.left, 0, 20, 100⟩, ⟨2, PaddleSide.right, 10, 570, 100⟩],
        ⟨-1, 300, 8, -2, 1, 4/5, 12/5⟩, 100, 11, 2, 600, 800, true, false, none⟩
      true 0).ball.speedX = -2 ∧
    (pongScoreStep
      ⟨[⟨1, PaddleSide.left, 0, 20, 100⟩, ⟨2, PaddleSide.right, 10, 570, 100⟩],
        ⟨-1, 300, 8, -2, 1, 4/5, 12/5⟩, 100, 11, 2, 600, 800, true, false, none⟩
      true 0).ball.speedX ≠ (4/5 : ℚ) ∧
    (pongScoreStep
      ⟨[⟨1, PaddleSide.left, 0, 20, 100⟩, ⟨2, PaddleSide.right, 10, 570, 100⟩],
        ⟨-1, 300, 8, -2, 1, 4/5, 12/5⟩, 100, 11, 2, 600, 800, true, false, none⟩
      true 0).ball.speedX ≠ -(4/5 : ℚ) := by
  have h3 : (pongScoreStep
      ⟨[⟨1, PaddleSide.left, 0, 20, 100⟩, ⟨2, PaddleSide.right, 10, 570, 100⟩],
        ⟨-1, 300, 8, -2, 1, 4/5, 12/5⟩, 100, 11, 2, 600, 800, true, false, none⟩
      true 0).ball.speedX = -2 := by decide
  refine ⟨by decide, by decide, h3, ?_, ?_⟩
  · rw [h3]; norm_num
  · rw [h3]; norm_num

/-- C5, amended: (i) a paddle contact never decreases `|speedX|` and never
pushes it above the `maxSpeedX` cap (= 3 × base speed), for any state whose
speed is within the cap — so across successive contacts the speed is
monotonically non-decreasing up to the cap; (ii)/(iii) after a score that
does NOT win the match, the ball is recentered and its horizontal speed is
reset to base speed (random serve direction); (iv)/(v) after a match-winning
score — by the right player (ball out left) or by the left player (ball out
right) — the game ends and the ball, its speed included, is left untouched. -/
theorem c5_pong_speed_amended :
    (∀ (room : PongRoom) (ball : Ball) (p : PongPlayer),
      |ball.speedX| ≤ ball.maxSpeedX →
      |ball.speedX| ≤ |(pongPaddleHit room ball p).speedX| ∧
      |(pongPaddleHit room ball p).speedX| ≤ ball.maxSpeedX) ∧
    (∀ (room : PongRoom) (direction : Bool) (randY : ℚ) (rp : PongPlayer),
      room.ball.x < 0 →
      room.players.find? (fun p => p.side == PaddleSide.right) = some rp →
      rp.score + 1 < room.winScore →
      (pongScoreStep room direction randY).ball.speedX =
        room.ball.baseSpeedX * (if direction then 1 else -1) ∧
      (pongScoreStep room direction randY).ball.x = room.canvasW / 2 ∧
      (pongScoreStep room direction randY).ball.y = room.canvasH / 2) ∧
    (∀ (room : PongRoom) (direction : Bool) (randY : ℚ) (lp : PongPlayer),
      ¬ room.ball.x < 0 → room.ball.x > room.canvasW →
      room.players.find? (fun p => p.side == PaddleSide.left) = some lp →
      lp.score + 1 < room.winScore →
      (pongScoreStep room direction randY).ball.speedX =
        room.ball.baseSpeedX * (if direction then 1 else -1) ∧
      (pongScoreStep room direction randY).ball.x = room.canvasW / 2 ∧
      (pongScoreStep room direction randY).ball.y = room.canvasH / 2) ∧
    (∀ (room : PongRoom) (direction : Bool) (randY : ℚ) (rp : PongPlayer),
      room.ball.x < 0 →
      room.players.find? (fun p => p.side == PaddleSide.right) = some rp →
      rp.score + 1 ≥ room.winScore →
      (pongScoreStep room direction randY).gameOver = true ∧
      (pongScoreStep room direction randY).ball = room.ball) ∧
    (∀ (room : PongRoom) (direction : Bool) (randY : ℚ) (lp : PongPlayer),
      ¬ room.ball.x < 0 → room.ball.x > room.canvasW →
      room.players.find? (fun p => p.side == PaddleSide.left) = some lp →
      lp.score + 1 ≥ room.winScore →
      (pongScoreStep room direction randY).gameOver = true ∧
      (pongScoreStep room direction randY).ball = room.ball) := by
  refine ⟨?_, ?_, ?_, ?_, ?_⟩
  · intro room ball p hcap
    have hmul := increaseMultiplier_ge_one room.speedIncrease
    have habs : (0 : ℚ) ≤ |ball.speedX| := abs_nonneg _
    have hacc : |ball.speedX| ≤ |ball.speedX| * increaseMultiplier room.speedIncrease :=
      le_mul_of_one_le_right habs hmul
    have hminge : |ball.speedX| ≤
        min (|ball.speedX| * increaseMultiplier room.speedIncrease) ball.maxSpeedX :=
      le_min hacc hcap
    have hminnn : (0 : ℚ) ≤
        min (|ball.speedX| * increaseMultiplier room.speedIncrease) ball.maxSpeedX :=
      le_trans habs hminge
    have habsmin :
        |min (|ball.speedX| * increaseMultiplier room.speedIncrease) ball.maxSpeedX| =
        min (|ball.speedX| * increaseMultiplier room.speedIncrease) ball.maxSpeedX :=
      abs_of_nonneg hminnn
    refine ⟨?_, ?_⟩
    · rcases hs : p.side with _ | _
      · simp only [pongPaddleHit, hs]
        split
        · simpa [habsmin] using hminge
        · exact le_refl _
      · simp only [pongPaddleHit, hs]
        split
        · simpa [abs_neg, habsmin] using hminge
        · exact le_refl _
    · rcases hs : p.side with _ | _
      · simp only [pongPaddleHit, hs]
        split
        · simpa [habsmin] using min_le_right _ _
        · exact hcap
      · simp only [pongPaddleHit, hs]
        split
        · simpa [abs_neg, habsmin] using min_le_right _ _
        · exact hcap
  · intro room direction randY rp hx hfind hscore
    have hno : ¬ rp.score + 1 ≥ room.winScore := by omega
    simp [pongScoreStep, hx, hfind, hno, resetBall]
  · intro room direction randY lp hnx hx hfind hscore
    have hno : ¬ lp.score + 1 ≥ room.winScore := by omega
    simp [pongScoreStep, hnx, hx, hfind, hno, resetBall]
  · intro room direction randY rp hx hfind hscore
    simp [pongScoreStep, hx, hfind, hscore]
  · intro room direction randY lp hnx hx hfind hscore
    simp [pongScoreStep, hnx, hx, hfind, hscore]

/-- C5, witness: a concrete left-paddle contact at speed 1 (cap 2.4)
accelerates without exceeding the cap, and a concrete non-winning score
resets the ball speed to base. -/
theorem c5_pong_speed_amended_witness :
    ((|(⟨25, 120, 8, -1, 0, 4/5, 12/5⟩ : Ball).speedX| ≤
        |(pongPaddleHit
          ⟨[⟨1, PaddleSide.left, 0, 20, 100⟩], ⟨25, 120, 8, -1, 0, 4/5, 12/5⟩,
            100, 11, 2, 600, 800, true, false, none⟩
          ⟨25, 120, 8, -1, 0, 4/5, 12/5⟩ ⟨1, PaddleSide.left, 0, 20, 100⟩).speedX| ∧
      |(pongPaddleHit
          ⟨[⟨1, PaddleSide.left, 0, 20, 100⟩], ⟨25, 120, 8, -1, 0, 4/5, 12/5⟩,
            100, 11, 2, 600, 800, true, false, none⟩
          ⟨25, 120, 8, -1, 0, 4/5, 12/5⟩ ⟨1, PaddleSide.left, 0, 20, 100⟩).speedX| ≤
        (⟨25, 120, 8, -1, 0, 4/5, 12/5⟩ : Ball).maxSpeedX) ∧
    ((pongScoreStep
        ⟨[⟨1, PaddleSide.left, 0, 20, 100⟩, ⟨2, PaddleSide.right, 3, 570, 100⟩],
          ⟨-1, 300, 8, -2, 1, 4/5, 12/5⟩, 100, 11, 2, 600, 800, true, false, none⟩
        true 0).ball.speedX =
      (⟨-1, 300, 8, -2, 1, 4/5, 12/5⟩ : Ball).baseSpeedX * (if (true : Bool) then 1 else -1) ∧
      (pongScoreStep
        ⟨[⟨1, PaddleSide.left, 0, 20, 100⟩, ⟨2, PaddleSide.right, 3, 570, 100⟩],
          ⟨-1, 300, 8, -2, 1, 4/5, 12/5⟩, 100, 11, 2, 600, 800, true, false, none⟩
        true 0).ball.x = 600 / 2 ∧
      (pongScoreStep
        ⟨[⟨1, PaddleSide.left, 0, 20, 100⟩, ⟨2, PaddleSide.right, 3, 570, 100⟩],
          ⟨-1, 300, 8, -2, 1, 4/5, 12/5⟩, 100, 11, 2, 600, 800, true, false, none⟩
        true 0).ball.y = 800 / 2)) :=
  ⟨c5_pong_speed_amended.1
      ⟨[⟨1, PaddleSide.left, 0, 20, 100⟩], ⟨25, 120, 8, -1, 0, 4/5, 12/5⟩,
        100, 11, 2, 600, 800, true, false, none⟩
      ⟨25, 120, 8, -1, 0, 4/5, 12/5⟩ ⟨1, PaddleSide.left, 0, 20, 100⟩ (by norm_num),
    c5_pong_speed_amended.2.1
      ⟨[⟨1, PaddleSide.left, 0, 20, 100⟩, ⟨2, PaddleSide.right, 3, 570, 100⟩],
        ⟨-1, 300, 8, -2, 1, 4/5, 12/5⟩, 100, 11, 2, 600, 800, true, false, none⟩
      true 0 ⟨2, PaddleSide.right, 3, 570, 100⟩ (by norm_num) (by decide) (by norm_num)⟩

/-! ## Ship engine: shield arc, deflection, collisions (src/server.js:1450-1690)

Positions and velocities are rational; the square root `r = √(dx²+dy²)` that
JS obtains through `Math.atan2`/`Math.cos`/`Math.sin` (the unit normal
`(cos(atan2(dy,dx)), sin(atan2(dy,dx))) = (dx/r, dy/r)`) and `Math.hypot`
(`relSpeed`) are passed as parameters, constrained by hypotheses
`r² = dx² + dy²` etc. in the theorems.  Likewise `angleToShip` /
`angleToAsteroid` stand for the source's `atan2(...) * 180 / π` in degrees. -/

/-- `((a % 360) + 360) % 360` (src/server.js:1452). -/
def normalizeAngle (a : ℚ) : ℚ := jsMod (jsMod a 360 + 360) 360

/-- `isAngleInShieldArc` (src/server.js:1450-1462). -/
def isAngleInShieldArc (angle shieldRotation arcSize : ℚ) : Bool :=
  let normAngle := normalizeAngle angle
  let shieldStart := normalizeAngle (shieldRotation - arcSize / 2)
  let shieldEnd := normalizeAngle (shieldRotation + arcSize / 2)
  if shieldStart < shieldEnd then
    decide (shieldStart ≤ normAngle ∧ normAngle ≤ shieldEnd)
  else
    decide (normAngle ≥ shieldStart ∨ normAngle ≤ shieldEnd)

inductive AsteroidSize where
  | large | medium | small
  deriving DecidableEq, Repr

structure Asteroid where
  x : ℚ
  y : ℚ
  vx : ℚ
  vy : ℚ
  radius : ℚ
  health : ℚ
  size : AsteroidSize
  deriving DecidableEq, Repr

/-- One team's ship (createRoom ship branch, src/server.js:264-310);
`attackShieldActive` is `ship.boosters.attackShield.active`. -/
structure ShipState where
  x : ℚ
  y : ℚ
  vx : ℚ
  vy : ℚ
  radius : ℚ
  health : ℚ
  invulnerable : Bool
  lastDamageTime : ℕ
  invulnerableUntil : ℕ
  attackShieldActive : Bool
  deriving DecidableEq, Repr

structure ShieldState where
  rotation : ℚ
  arcSize : ℚ
  active : Bool
  deriving DecidableEq, Repr

/-- `deflectAsteroid` (src/server.js:1465-1489): elastic reflection about the
ship→asteroid normal, 1.2× speed-up, and a push to just outside contact.
`r = √(dx²+dy²)` is the distance used to form the unit normal. -/
def deflectAsteroid (a : Asteroid) (ship : ShipState) (r : ℚ) : Asteroid :=
  let dx := a.x - ship.x
  let dy := a.y - ship.y
  let normalX := dx / r
  let normalY := dy / r
  let dotProduct := a.vx * normalX + a.vy * normalY
  let vx := (a.vx - 2 * dotProduct * normalX) * (6/5)
  let vy := (a.vy - 2 * dotProduct * normalY) * (6/5)
  let pushDistance := ship.radius + a.radius + 5
  { a with
    vx := vx, vy := vy,
    x := ship.x + normalX * pushDistance,
    y := ship.y + normalY * pushDistance }

structure ShipAsteroidResult where
  ship : ShipState
  asteroid : Asteroid
  asteroidDestroyed : Bool
  deriving DecidableEq, Repr

/-- Body of the per-asteroid loop of section 3 of `checkShipCollisions`
(src/server.js:1636-1690), given that the collision distance test already
passed: an active shield facing the asteroid deflects it (and, with the
attack-shield booster, damages it); otherwise a non-invulnerable ship takes
impulse damage `max(1, ⌈relSpeed × sizeMultiplier × 0.3⌉)`, becomes
invulnerable for 1 s, and the asteroid is bounced radially outward at speed 3
(`cos/sin(atan2(dy,dx)) · 3 = (dx/r, dy/r) · 3`); an invulnerable ship is
left entirely unchanged.  (The legacy `ship.hearts` branch, dead in
dual-ship rooms, is omitted.) -/
def shipAsteroidStep (ship : ShipState) (shield : ShieldState) (a : Asteroid)
    (angleToAsteroid r relSpeed : ℚ) (now : ℕ) : ShipAsteroidResult :=
  if shield.active && isAngleInShieldArc angleToAsteroid shield.rotation 72 then
    let a' := deflectAsteroid a ship r
    if ship.attackShieldActive then
      let a2 := { a' with health := max 0 (a'.health - 2) }
      ⟨ship, a2, decide (a2.health ≤ 0)⟩
    else ⟨ship, a', false⟩
  else
    if !ship.invulnerable then
      let sizeMultiplier : ℚ :=
        match a.size with
        | .large => 3/2
        | .medium => 1
        | .small => 1/2
      let impulseDamage : ℤ := ⌈relSpeed * sizeMultiplier * (3/10)⌉
      let damage : ℚ := max 1 (impulseDamage : ℚ)
      let ship' := { ship with
        health := max 0 (ship.health - damage),
        lastDamageTime := now, invulnerable := true,
        invulnerableUntil := now + 1000 }
      let dx := a.x - ship.x
      let dy := a.y - ship.y
      let a' := { a with vx := (dx / r) * 3, vy := (dy / r) * 3 }
      ⟨ship', a', false⟩
    else ⟨ship, a, false⟩

/-- Body of the bullet-vs-ship branch of section 1 of `checkShipCollisions`
(src/server.js:1557-1597), given the distance test already passed.  The
returned Bool tells whether the bullet survives: it never does — a shielded
hit destroys it (no reflection), an unshielded hit removes it and deals 10
damage unless the ship is invulnerable. -/
def shipBulletStep (ship : ShipState) (shield : ShieldState)
    (angleToShip : ℚ) (now : ℕ) : ShipState × Bool :=
  if shield.active && isAngleInShieldArc angleToShip shield.rotation shield.arcSize then
    (ship, false)
  else
    if !ship.invulnerable then
      ({ ship with health := max 0 (ship.health - 10), lastDamageTime := now }, false)
    else (ship, false)

theorem jsTrunc_of_nonneg (x : ℚ) (h : 0 ≤ x) : jsTrunc x = ⌊x⌋ := by
  rw [jsTrunc, if_pos h]

theorem jsTrunc_of_neg (x : ℚ) (h : x < 0) : jsTrunc x = ⌈x⌉ := by
  rw [jsTrunc, if_neg (not_le.mpr h)]

theorem jsMod_360_small (a : ℚ) (h0 : 0 ≤ a) (h1 : a < 360) : jsMod a 360 = a := by
  have hq : jsTrunc (a / 360) = 0 := by
    rw [jsTrunc_of_nonneg _ (div_nonneg h0 (by norm_num)), Int.floor_eq_zero_iff,
      Set.mem_Ico]
    exact ⟨div_nonneg h0 (by norm_num), (div_lt_one (by norm_num)).mpr h1⟩
  rw [jsMod, hq]
  push_cast
  ring

theorem jsMod_360_mid (a : ℚ) (h0 : 360 ≤ a) (h1 : a < 720) : jsMod a 360 = a - 360 := by
  have hq : jsTrunc (a / 360) = 1 := by
    rw [jsTrunc_of_nonneg _ (div_nonneg (by linarith) (by norm_num)), Int.floor_eq_iff]
    constructor
    · push_cast
      rw [le_div_iff₀ (by norm_num : (0:ℚ) < 360)]
      linarith
    · push_cast
      rw [div_lt_iff₀ (by norm_num : (0:ℚ) < 360)]
      linarith
  rw [jsMod, hq]
  push_cast
  ring

theorem normalizeAngle_small (a : ℚ) (h0 : 0 ≤ a) (h1 : a < 360) :
    normalizeAngle a = a := by
  rw [normalizeAngle, jsMod_360_small a h0 h1,
    jsMod_360_mid (a + 360) (by linarith) (by linarith)]
  ring

theorem normalizeAngle_negSmall (a : ℚ) (h0 : -360 < a) (h1 : a < 0) :
    normalizeAngle a = a + 360 := by
  have hm : jsMod a 360 = a := by
    have hq : jsTrunc (a / 360) = 0 := by
      rw [jsTrunc_of_neg _ (div_neg_of_neg_of_pos h1 (by norm_num)),
        Int.ceil_eq_zero_iff, Set.mem_Ioc]
      constructor
      · rw [lt_div_iff₀ (by norm_num : (0:ℚ) < 360)]
        linarith
      · rw [div_le_iff₀ (by norm_num : (0:ℚ) < 360)]
        linarith
    rw [jsMod, hq]
    push_cast
    ring
  rw [normalizeAngle, hm, jsMod_360_small (a + 360) (by linarith) (by linarith)]

/-- Arc test at approach angle 0° for rotation 0, arc width 72°: inside
(the wrapped arc runs 324°–36°). -/
theorem isAngleInShieldArc_eval_zero : isAngleInShieldArc 0 0 72 = true := by
  have hs : normalizeAngle ((0 : ℚ) - 72/2) = 324 := by
    have h : ((0 : ℚ) - 72/2) = -36 := by norm_num
    rw [h, normalizeAngle_negSmall (-36) (by norm_num) (by norm_num)]
    norm_num
  have he : normalizeAngle ((0 : ℚ) + 72/2) = 36 := by
    have h : ((0 : ℚ) + 72/2) = 36 := by norm_num
    rw [h, normalizeAngle_small 36 (by norm_num) (by norm_num)]
  have hn : normalizeAngle (0 : ℚ) = 0 :=
    normalizeAngle_small 0 (by norm_num) (by norm_num)
  simp only [isAngleInShieldArc, hs, he, hn]
  norm_num

/-- Arc test at approach angle 180° for rotation 0, arc width 72°: outside. -/
theorem isAngleInShieldArc_eval_oneEighty : isAngleInShieldArc 180 0 72 = false := by
  have hs : normalizeAngle ((0 : ℚ) - 72/2) = 324 := by
    have h : ((0 : ℚ) - 72/2) = -36 := by norm_num
    rw [h, normalizeAngle_negSmall (-36) (by norm_num) (by norm_num)]
    norm_num
  have he : normalizeAngle ((0 : ℚ) + 72/2) = 36 := by
    have h : ((0 : ℚ) + 72/2) = 36 := by norm_num
    rw [h, normalizeAngle_small 36 (by norm_num) (by norm_num)]
  have hn : normalizeAngle (180 : ℚ) = 180 :=
    normalizeAngle_small 180 (by norm_num) (by norm_num)
  simp only [isAngleInShieldArc, hs, he, hn]
  norm_num

/-- Arc test at approach angle 10° for rotation 0, arc width 72°: inside. -/
theorem isAngleInShieldArc_eval_ten : isAngleInShieldArc 10 0 72 = true := by
  have hs : normalizeAngle ((0 : ℚ) - 72/2) = 324 := by
    have h : ((0 : ℚ) - 72/2) = -36 := by norm_num
    rw [h, normalizeAngle_negSmall (-36) (by norm_num) (by norm_num)]
    norm_num
  have he : normalizeAngle ((0 : ℚ) + 72/2) = 36 := by
    have h : ((0 : ℚ) + 72/2) = 36 := by norm_num
    rw [h, normalizeAngle_small 36 (by norm_num) (by norm_num)]
  have hn : normalizeAngle (10 : ℚ) = 10 :=
    normalizeAngle_small 10 (by norm_num) (by norm_num)
  simp only [isAngleInShieldArc, hs, he, hn]
  norm_num

/-- C7, counterexample.  (a) A bullet arriving strictly within the active
shield's arc (approach angle 0°, arc 324°–36°) is NOT reflected — the code
destroys it (`bullets.splice`), so no projectile with a sign-flipped normal
velocity exists — though indeed no damage is dealt.  (b) An asteroid
arriving strictly outside the arc (angle 180°) at a spawn-protected
(invulnerable) ship causes NO damage and leaves the asteroid untouched,
contradicting the claim that an out-of-arc arrival causes damage. -/
theorem c7_shield_counterexample :
    (shipBulletStep ⟨100, 100, 0, 0, 30, 100, false, 0, 0, false⟩
        ⟨0, 72, true⟩ 0 0).2 = false ∧
    (shipBulletStep ⟨100, 100, 0, 0, 30, 100, false, 0, 0, false⟩
        ⟨0, 72, true⟩ 0 0).1.health = 100 ∧
    (shipAsteroidStep ⟨100, 100, 0, 0, 30, 100, true, 0, 0, false⟩
        ⟨0, 72, true⟩ ⟨0, 100, 1, 0, 20, 3, AsteroidSize.medium⟩
        180 100 1 0).ship.health = 100 ∧
    (shipAsteroidStep ⟨100, 100, 0, 0, 30, 100, true, 0, 0, false⟩
        ⟨0, 72, true⟩ ⟨0, 100, 1, 0, 20, 3, AsteroidSize.medium⟩
        180 100 1 0).asteroid = ⟨0, 100, 1, 0, 20, 3, AsteroidSize.medium⟩ := by
  refine ⟨?_, ?_, ?_, ?_⟩ <;>
    simp [shipBulletStep, shipAsteroidStep, isAngleInShieldArc_eval_zero,
      isAngleInShieldArc_eval_oneEighty]

/-- C7, amended: (i) an ASTEROID reaching the ship strictly within the
active shield's arc is elastically deflected — the normal component of its
velocity flips sign (scaled by the 1.2 repulsion factor) — and the ship
takes no damage, whatever the attack-shield booster state: without the
booster the asteroid's health is untouched and it survives; with it the
deflected asteroid loses 2 health (floored at 0) and is destroyed exactly
when that reaches 0; (ii) one reaching a non-invulnerable ship outside the
arc deals `max(1, ⌈relSpeed·sizeMult·0.3⌉)` damage (strictly decreasing a
positive health) and is bounced radially outward rather than elastically
reflected; (iii) outside the arc an invulnerable ship and the asteroid are
both left unchanged (no damage); (iv) a PROJECTILE within the arc is
destroyed — not reflected — with no damage, and outside the arc it is
destroyed dealing 10 damage to a non-invulnerable ship. -/
theorem c7_shield_amended :
    (∀ (ship : ShipState) (shield : ShieldState) (a : Asteroid)
        (θ r relSpeed : ℚ) (now : ℕ),
      shield.active = true →
      isAngleInShieldArc θ shield.rotation 72 = true →
      r ≠ 0 → r ^ 2 = (a.x - ship.x) ^ 2 + (a.y - ship.y) ^ 2 →
      (shipAsteroidStep ship shield a θ r relSpeed now).ship = ship ∧
      ((shipAsteroidStep ship shield a θ r relSpeed now).asteroid.vx * ((a.x - ship.x) / r) +
        (shipAsteroidStep ship shield a θ r relSpeed now).asteroid.vy * ((a.y - ship.y) / r)) =
        -(6/5) * (a.vx * ((a.x - ship.x) / r) + a.vy * ((a.y - ship.y) / r)) ∧
      (ship.attackShieldActive = false →
        (shipAsteroidStep ship shield a θ r relSpeed now).asteroid.health = a.health ∧
        (shipAsteroidStep ship shield a θ r relSpeed now).asteroidDestroyed = false) ∧
      (ship.attackShieldActive = true →
        (shipAsteroidStep ship shield a θ r relSpeed now).asteroid.health =
          max 0 (a.health - 2) ∧
        (shipAsteroidStep ship shield a θ r relSpeed now).asteroidDestroyed =
          decide (max 0 (a.health - 2) ≤ 0))) ∧
    (∀ (ship : ShipState) (shield : ShieldState) (a : Asteroid)
        (θ r relSpeed : ℚ) (now : ℕ),
      (shield.active && isAngleInShieldArc θ shield.rotation 72) = false →
      ship.invulnerable = false →
      (shipAsteroidStep ship shield a θ r relSpeed now).ship.health =
        max 0 (ship.health - max 1 ((⌈relSpeed *
          (match a.size with
            | AsteroidSize.large => (3/2 : ℚ)
            | AsteroidSize.medium => 1
            | AsteroidSize.small => 1/2) * (3/10)⌉ : ℤ) : ℚ)) ∧
      (0 < ship.health →
        (shipAsteroidStep ship shield a θ r relSpeed now).ship.health < ship.health) ∧
      (shipAsteroidStep ship shield a θ r relSpeed now).asteroid.vx =
        ((a.x - ship.x) / r) * 3 ∧
      (shipAsteroidStep ship shield a θ r relSpeed now).asteroid.vy =
        ((a.y - ship.y) / r) * 3) ∧
    (∀ (ship : ShipState) (shield : ShieldState) (a : Asteroid)
        (θ r relSpeed : ℚ) (now : ℕ),
      (shield.active && isAngleInShieldArc θ shield.rotation 72) = false →
      ship.invulnerable = true →
      shipAsteroidStep ship shield a θ r relSpeed now = ⟨ship, a, false⟩) ∧
    (∀ (ship : ShipState) (shield : ShieldState) (θ : ℚ) (now : ℕ),
      ((shield.active && isAngleInShieldArc θ shield.rotation shield.arcSize) = true →
        shipBulletStep ship shield θ now = (ship, false)) ∧
      ((shield.active && isAngleInShieldArc θ shield.rotation shield.arcSize) = false →
        ship.invulnerable = false →
        (shipBulletStep ship shield θ now).1.health = max 0 (ship.health - 10) ∧
        (shipBulletStep ship shield θ now).2 = false)) := by
  refine ⟨?_, ?_, ?_, ?_⟩
  · intro ship shield a θ r relSpeed now hact harc hr0 hr
    have hcond : (shield.active && isAngleInShieldArc θ shield.rotation 72) = true := by
      rw [hact, harc]; rfl
    have hsum : ((a.x - ship.x) / r) ^ 2 + ((a.y - ship.y) / r) ^ 2 = 1 := by
      field_simp
      linarith [hr]
    have hflip : (deflectAsteroid a ship r).vx * ((a.x - ship.x) / r) +
        (deflectAsteroid a ship r).vy * ((a.y - ship.y) / r) =
        -(6/5) * (a.vx * ((a.x - ship.x) / r) + a.vy * ((a.y - ship.y) / r)) := by
      simp only [deflectAsteroid]
      have expand :
          ((a.vx - 2 * (a.vx * ((a.x - ship.x) / r) + a.vy * ((a.y - ship.y) / r)) *
              ((a.x - ship.x) / r)) * (6/5)) * ((a.x - ship.x) / r) +
          ((a.vy - 2 * (a.vx * ((a.x - ship.x) / r) + a.vy * ((a.y - ship.y) / r)) *
              ((a.y - ship.y) / r)) * (6/5)) * ((a.y - ship.y) / r) =
          (6/5) * ((a.vx * ((a.x - ship.x) / r) + a.vy * ((a.y - ship.y) / r)) *
            (1 - 2 * (((a.x - ship.x) / r) ^ 2 + ((a.y - ship.y) / r) ^ 2))) := by
        ring
      rw [expand, hsum]
      ring
    rcases hatt : ship.attackShieldActive with _ | _
    · refine ⟨?_, ?_, ?_, ?_⟩
      · simp [shipAsteroidStep, hcond, hatt]
      · simp only [shipAsteroidStep, hcond, if_true, hatt, Bool.false_eq_true, if_false]
        exact hflip
      · intro h
        simp [shipAsteroidStep, hcond, hatt, deflectAsteroid]
      · intro h
        exact Bool.noConfusion h
    · refine ⟨?_, ?_, ?_, ?_⟩
      · simp [shipAsteroidStep, hcond, hatt]
      · simp only [shipAsteroidStep, hcond, if_true, hatt]
        exact hflip
      · intro h
        exact Bool.noConfusion h
      · intro h
        simp [shipAsteroidStep, hcond, hatt, deflectAsteroid]
  · intro ship shield a θ r relSpeed now hcond hinv
    have hni : (!ship.invulnerable) = true := by rw [hinv]; rfl
    refine ⟨?_, ?_, ?_, ?_⟩
    · simp [shipAsteroidStep, hcond, hni]
    · intro hpos
      simp only [shipAsteroidStep, hcond, Bool.false_eq_true, if_false, hni, if_true]
      have hdam : (1 : ℚ) ≤ max 1 ((⌈relSpeed *
          (match a.size with
            | AsteroidSize.large => (3/2 : ℚ)
            | AsteroidSize.medium => 1
            | AsteroidSize.small => 1/2) * (3/10)⌉ : ℤ) : ℚ) := le_max_left _ _
      have h1 : ship.health - max 1 ((⌈relSpeed *
          (match a.size with
            | AsteroidSize.large => (3/2 : ℚ)
            | AsteroidSize.medium => 1
            | AsteroidSize.small => 1/2) * (3/10)⌉ : ℤ) : ℚ) < ship.health := by
        linarith
      exact max_lt hpos h1
    · simp [shipAsteroidStep, hcond, hni]
    · simp [shipAsteroidStep, hcond, hni]
  · intro ship shield a θ r relSpeed now hcond hinv
    have hni : (!ship.invulnerable) = false := by rw [hinv]; rfl
    simp [shipAsteroidStep, hcond, hni]
  · intro ship shield θ now
    constructor
    · intro hcond
      simp [shipBulletStep, hcond]
    · intro hcond hinv
      have hni : (!ship.invulnerable) = true := by rw [hinv]; rfl
      constructor <;> simp [shipBulletStep, hcond, hni]

/-- C7, witness: an asteroid at a 3-4-5 offset from the ship (`r = 5`),
approaching within the active shield arc of a ship without the attack
shield: the ship is untouched, the normal velocity component flips sign
scaled by 1.2, and the asteroid survives with its health untouched. -/
theorem c7_shield_amended_witness :
    (shipAsteroidStep ⟨0, 0, 0, 0, 30, 100, false, 0, 0, false⟩
        ⟨0, 72, true⟩ ⟨3, 4, -1, -2, 20, 3, AsteroidSize.medium⟩ 10 5 1 0).ship =
      ⟨0, 0, 0, 0, 30, 100, false, 0, 0, false⟩ ∧
    ((shipAsteroidStep ⟨0, 0, 0, 0, 30, 100, false, 0, 0, false⟩
        ⟨0, 72, true⟩ ⟨3, 4, -1, -2, 20, 3, AsteroidSize.medium⟩ 10 5 1 0).asteroid.vx *
        ((3 - 0) / 5) +
      (shipAsteroidStep ⟨0, 0, 0, 0, 30, 100, false, 0, 0, false⟩
        ⟨0, 72, true⟩ ⟨3, 4, -1, -2, 20, 3, AsteroidSize.medium⟩ 10 5 1 0).asteroid.vy *
        ((4 - 0) / 5)) =
      -(6/5) * ((-1) * ((3 - 0) / 5) + (-2) * ((4 - 0) / 5)) ∧
    (shipAsteroidStep ⟨0, 0, 0, 0, 30, 100, false, 0, 0, false⟩
        ⟨0, 72, true⟩ ⟨3, 4, -1, -2, 20, 3, AsteroidSize.medium⟩ 10 5 1 0).asteroid.health =
      3 ∧
    (shipAsteroidStep ⟨0, 0, 0, 0, 30, 100, false, 0, 0, false⟩
        ⟨0, 72, true⟩ ⟨3, 4, -1, -2, 20, 3, AsteroidSize.medium⟩ 10 5 1
        0).asteroidDestroyed = false :=
  let h := c7_shield_amended.1 ⟨0, 0, 0, 0, 30, 100, false, 0, 0, false⟩ ⟨0, 72, true⟩
    ⟨3, 4, -1, -2, 20, 3, AsteroidSize.medium⟩ 10 5 1 0
    rfl isAngleInShieldArc_eval_ten (by norm_num) (by norm_num)
  ⟨h.1, h.2.1, (h.2.2.1 rfl).1, (h.2.2.1 rfl).2⟩

/-! ## Ship weapon charge tracking and the `room.systems` alias
(src/server.js:312-333, 833-889, 1103-1146, 3651-3661)

`createRoom` builds `room.teamSystems.blue` / `room.teamSystems.pink` and then
sets `room.systems = room.teamSystems.blue` — an object ALIAS, kept "for
backward compatibility".  `updateWeaponCharge(player, tilt, room)` reads and
writes its gesture-tracking state (`lastWeaponTilt`, `baseTilt`, `movingUp`,
`justFired`, `isCharging`) through `room.systems.weapon`, i.e. always through
the BLUE weapon object, regardless of which team the processed player is on;
only the `systems.weapon.energy` / `hasPlayer` writes in the `weapon` case of
`updateShip` go through the per-team `systems` local.  The embedding makes
the alias a definition (`ShipRoom.systems`) and a write through it a write to
the blue field (`setSystemsWeapon`). -/

structure WeaponState where
  energy : ℚ
  lastWeaponTilt : Option ℚ
  baseTilt : ℚ
  movingUp : Bool
  justFired : Bool
  isCharging : Bool
  hasPlayer : Bool
  deriving DecidableEq, Repr

structure TeamSystems where
  weapon : WeaponState
  deriving DecidableEq, Repr

/-- The two team-system objects of a ship room (src/server.js:312-330),
restricted to the weapon system, the only part this claim touches. -/
structure ShipRoom where
  blue : TeamSystems
  pink : TeamSystems
  deriving DecidableEq, Repr

/-- The `room.systems` alias (src/server.js:333): it IS the blue object. -/
def ShipRoom.systems (room : ShipRoom) : TeamSystems := room.blue

/-- A write through the `room.systems` alias lands in the blue object. -/
def setSystemsWeapon (room : ShipRoom) (w : WeaponState) : ShipRoom :=
  { room with blue := { room.blue with weapon := w } }

inductive Team where
  | blue | pink
  deriving DecidableEq, Repr

def teamSystemsOf (room : ShipRoom) (t : Team) : TeamSystems :=
  match t with
  | .blue => room.blue
  | .pink => room.pink

def setTeamWeapon (room : ShipRoom) (t : Team) (w : WeaponState) : ShipRoom :=
  match t with
  | .blue => { room with blue := { room.blue with weapon := w } }
  | .pink => { room with pink := { room.pink with weapon := w } }

structure WeaponChargeResult where
  newEnergy : ℚ
  shouldFire : Bool
  bulletCount : ℤ
  deriving DecidableEq, Repr

/-- Tail of `updateWeaponCharge` (src/server.js:878-888): relative-tilt
energy, `isCharging` update, non-firing result. -/
def weaponEnergyPhase (w : WeaponState) (currentTilt : ℚ) :
    WeaponState × WeaponChargeResult :=
  let relativeTilt : ℚ := if w.justFired then 0 else max 0 (currentTilt - w.baseTilt)
  ({ w with isCharging := decide (1/20 < relativeTilt) },
    ⟨relativeTilt * 10, false, 0⟩)

/-- `updateWeaponCharge` (src/server.js:833-889) as a pure function of the
weapon object it mutates (`room.systems.weapon`) and the current tilt;
`lastWeaponTilt = none` models the initial `undefined`. -/
def updateWeaponCharge (weapon : WeaponState) (currentTilt : ℚ) :
    WeaponState × WeaponChargeResult :=
  match weapon.lastWeaponTilt with
  | none =>
      ({ weapon with
          lastWeaponTilt := some currentTilt,
          baseTilt := currentTilt,
          movingUp := false,
          justFired := false },
        ⟨0, false, 0⟩)
  | some lastTilt =>
      let delta := currentTilt - lastTilt
      let currentlyMovingUp : Bool := decide (1/100 < delta)
      let currentlyMovingDown : Bool := decide (delta < -(1/100))
      if !weapon.movingUp && currentlyMovingUp then
        weaponEnergyPhase
          { weapon with
            lastWeaponTilt := some currentTilt,
            baseTilt := currentTilt,
            movingUp := true,
            justFired := false } currentTilt
      else if weapon.movingUp && currentlyMovingDown then
        ({ weapon with
            lastWeaponTilt := some currentTilt,
            movingUp := false,
            justFired := true,
            baseTilt := 999 },
          ⟨0, true, max 1 ⌈weapon.energy⌉⟩)
      else if currentlyMovingUp then
        weaponEnergyPhase
          { weapon with lastWeaponTilt := some currentTilt, movingUp := true }
          currentTilt
      else if currentlyMovingDown then
        let w1 := { weapon with lastWeaponTilt := some currentTilt, movingUp := false }
        let w2 :=
          if !w1.justFired then { w1 with baseTilt := min w1.baseTilt currentTilt }
          else w1
        weaponEnergyPhase w2 currentTilt
      else
        weaponEnergyPhase { weapon with lastWeaponTilt := some currentTilt } currentTilt

/-- `fireBulletForTeam` (src/server.js:1103-1146), restricted to its effect
on the team weapon object: no-op below the 0.1 energy floor, otherwise
energy zeroed and charging cleared (bullets, effects and ship state are
outside this claim's frame). -/
def fireBulletWeapon (room : ShipRoom) (t : Team) : ShipRoom :=
  let weapon := (teamSystemsOf room t).weapon
  if weapon.energy < 1/10 then room
  else setTeamWeapon room t { weapon with energy := 0, isCharging := false }

/-- The weapon case of `updateShip` (src/server.js:3651-3661) for a player of
team `t` with tilt sample `tilt`: `updateWeaponCharge` works on
`room.systems.weapon` — the blue object via the alias — while the
`systems.weapon.energy` and `hasPlayer` writes use the per-team local. -/
def updateShipWeaponCase (room : ShipRoom) (t : Team) (tilt : ℚ) : ShipRoom :=
  let res := updateWeaponCharge room.systems.weapon tilt
  let room1 := setSystemsWeapon room res.1
  let room2 :=
    if res.2.shouldFire && decide (0 < res.2.bulletCount) then
      fireBulletWeapon room1 t
    else
      setTeamWeapon room1 t
        { (teamSystemsOf room1 t).weapon with energy := res.2.newEnergy }
  setTeamWeapon room2 t
    { (teamSystemsOf room2 t).weapon with hasPlayer := true }

theorem updateWeaponCharge_lastTilt (w : WeaponState) (t : ℚ) :
    (updateWeaponCharge w t).1.lastWeaponTilt = some t := by
  rcases hl : w.lastWeaponTilt with _ | lastTilt <;>
    simp only [updateWeaponCharge, hl] <;>
    split_ifs <;>
    simp [weaponEnergyPhase]

/-- C10: in a ship room, processing a PINK-team weapon-role player writes the
gesture-tracking state into the BLUE team's weapon object (which afterwards
holds exactly the updated tracking state, its `lastWeaponTilt` being the
pink player's tilt sample), while the pink team's own tracking fields
(`lastWeaponTilt`, `baseTilt`, `movingUp`, `justFired`) are left unchanged —
because `room.systems`, through which `updateWeaponCharge` tracks the
gesture, aliases `room.teamSystems.blue`. -/
theorem c10_pink_weapon_tracks_blue :
    ∀ (room : ShipRoom) (tilt : ℚ),
      (updateShipWeaponCase room Team.pink tilt).blue.weapon =
        (updateWeaponCharge room.blue.weapon tilt).1 ∧
      (updateShipWeaponCase room Team.pink tilt).blue.weapon.lastWeaponTilt =
        some tilt ∧
      (updateShipWeaponCase room Team.pink tilt).pink.weapon.lastWeaponTilt =
        room.pink.weapon.lastWeaponTilt ∧
      (updateShipWeaponCase room Team.pink tilt).pink.weapon.baseTilt =
        room.pink.weapon.baseTilt ∧
      (updateShipWeaponCase room Team.pink tilt).pink.weapon.movingUp =
        room.pink.weapon.movingUp ∧
      (updateShipWeaponCase room Team.pink tilt).pink.weapon.justFired =
        room.pink.weapon.justFired := by
  intro room tilt
  refine ⟨?_, ?_, ?_, ?_, ?_, ?_⟩ <;>
    simp only [updateShipWeaponCase, ShipRoom.systems, setSystemsWeapon,
      setTeamWeapon, teamSystemsOf, fireBulletWeapon] <;>
    split_ifs <;>
    simp [updateWeaponCharge_lastTilt]

/-! ## Ballz turn state machine (src/server.js:4029-4162)

`ballzUpdatePlayer` dispatches on `player.turnState`; the aiming / charging /
launching handlers below are direct translations.  `Date.now()` is the `now`
parameter (ℕ, ms); `null` fields are `Option`; the strict `===` float
comparison of consecutive tilt samples is ℚ equality; `Math.cos/sin` of the
aim angle are the parameters `cosA`/`sinA` of the launch step. -/

inductive BallzTurnState where
  | aiming | charging | launching | balls_in_flight | turn_complete
  deriving DecidableEq, Repr

structure BallzBall where
  x : ℚ
  y : ℚ
  vx : ℚ
  vy : ℚ
  active : Bool
  isFirst : Bool
  deriving DecidableEq, Repr

structure BallzPlayer where
  tilt : ℚ
  lastTilt : Option ℚ
  aimAngle : ℚ
  isInDeadZone : Bool
  chargeStartTime : Option ℕ
  chargeProgress : ℚ
  turnState : BallzTurnState
  launchStartTime : ℕ
  launchX : Option ℚ
  balls : List BallzBall
  ballCount : ℕ
  firstBallReturned : Bool
  deriving DecidableEq, Repr

/-- Ballz room settings (src/server.js:376-382): `deadZoneSize` 0.05,
`chargeTime` 2000 ms, `ballLaunchDelay` 100 ms, `ballSpeed` 3 by default. -/
structure BallzRoom where
  deadZoneSize : ℚ
  chargeTime : ℚ
  ballLaunchDelay : ℚ
  ballSpeed : ℚ
  deriving DecidableEq, Repr

/-- The dead-zone test `player.tilt < deadZone || player.tilt > (1 - deadZone)`
(src/server.js:4064, 4105). -/
def ballzInDeadZone (room : BallzRoom) (tilt : ℚ) : Bool :=
  decide (tilt < room.deadZoneSize) || decide (1 - room.deadZoneSize < tilt)

/-- `ballzUpdateAiming` (src/server.js:4056-4093). -/
def ballzUpdateAiming (piQ : ℚ) (room : BallzRoom) (p : BallzPlayer)
    (now : ℕ) : BallzPlayer :=
  let minAngle := 10 * piQ / 180
  let maxAngle := 170 * piQ / 180
  let p1 := { p with
    aimAngle := minAngle + p.tilt * (maxAngle - minAngle),
    isInDeadZone := ballzInDeadZone room p.tilt }
  if ballzInDeadZone room p.tilt then
    { p1 with chargeStartTime := none, chargeProgress := 0, lastTilt := some p1.tilt }
  else
    match p1.lastTilt with
    | none => { p1 with lastTilt := some p1.tilt }
    | some lastTilt =>
        if p1.tilt = lastTilt then
          let p2 :=
            if p1.chargeStartTime.isNone then
              { p1 with
                chargeStartTime := some now,
                turnState := BallzTurnState.charging }
            else p1
          { p2 with lastTilt := some p2.tilt }
        else
          { p1 with chargeStartTime := none, lastTilt := some p1.tilt }

/-- `ballzUpdateCharging` (src/server.js:4099-4132). -/
def ballzUpdateCharging (room : BallzRoom) (p : BallzPlayer)
    (now : ℕ) : BallzPlayer :=
  let elapsed : ℕ := now - p.chargeStartTime.getD 0
  let p1 := { p with
    chargeProgress := min 1 ((elapsed : ℚ) / room.chargeTime),
    isInDeadZone := ballzInDeadZone room p.tilt }
  if ballzInDeadZone room p.tilt then
    { p1 with
      turnState := BallzTurnState.aiming,
      chargeStartTime := none,
      chargeProgress := 0 }
  else if ¬ p1.lastTilt = some p1.tilt then
    { p1 with
      turnState := BallzTurnState.aiming,
      chargeStartTime := none,
      chargeProgress := 0,
      lastTilt := some p1.tilt }
  else
    let p2 :=
      if 1 ≤ p1.chargeProgress then
        { p1 with turnState := BallzTurnState.launching, launchStartTime := now }
      else p1
    { p2 with lastTilt := some p2.tilt }

/-- `ballzUpdateLaunching` (src/server.js:4137-4162); `cosA`/`sinA` stand for
`Math.cos/sin(player.aimAngle)`. -/
def ballzUpdateLaunching (room : BallzRoom) (p : BallzPlayer) (now : ℕ)
    (cosA sinA : ℚ) : BallzPlayer :=
  let elapsed : ℕ := now - p.launchStartTime
  let shouldHaveLaunched : ℤ := ⌊(elapsed : ℚ) / room.ballLaunchDelay⌋ + 1
  let launchedCount : ℕ := p.balls.length
  let p1 :=
    if decide ((launchedCount : ℤ) < shouldHaveLaunched) &&
        decide (launchedCount < p.ballCount) then
      let launchX := p.launchX.getD (1/2)
      let speed := room.ballSpeed / 100
      { p with balls := p.balls ++
          [⟨launchX, 1, cosA * speed, -(sinA * speed), true,
            decide (launchedCount = 0)⟩] }
    else p
  if p.ballCount ≤ launchedCount then
    { p1 with
      turnState := BallzTurnState.balls_in_flight,
      firstBallReturned := false }
  else p1

/-- C8: the Ballz charge state machine.  (1) From `aiming`, outside the dead
zone, the state flips to `charging` exactly when the tilt sample is strictly
(`===`) equal to the previous sample and no charge is pending, stamping the
charge start at `now`; a changed sample clears any pending charge and stays
in `aiming`.  (2) In `charging`, any change of the sample resets to `aiming`
with the charge cleared.  (3) An identical sample held with the charge timer
at or past `chargeTime` flips `charging` to `launching`, stamping the launch
start.  (4) In `launching`, ball number `k` (0-based, `k` balls already out)
is appended exactly when `k·ballLaunchDelay ≤ elapsed`, one per tick, and
once all `ballCount` balls are out the state becomes `balls_in_flight`:
balls launch sequentially separated by `ballLaunchDelay`. -/
theorem c8_ballz_charge_machine :
    (∀ (piQ : ℚ) (room : BallzRoom) (p : BallzPlayer) (now : ℕ),
      p.turnState = BallzTurnState.aiming →
      ballzInDeadZone room p.tilt = false →
      ((ballzUpdateAiming piQ room p now).turnState = BallzTurnState.charging ↔
        p.lastTilt = some p.tilt ∧ p.chargeStartTime = none) ∧
      (p.lastTilt = some p.tilt → p.chargeStartTime = none →
        (ballzUpdateAiming piQ room p now).chargeStartTime = some now) ∧
      (∀ lt0, p.lastTilt = some lt0 → ¬ lt0 = p.tilt →
        (ballzUpdateAiming piQ room p now).chargeStartTime = none ∧
        (ballzUpdateAiming piQ room p now).turnState = BallzTurnState.aiming)) ∧
    (∀ (room : BallzRoom) (p : BallzPlayer) (now : ℕ),
      ballzInDeadZone room p.tilt = false →
      ¬ p.lastTilt = some p.tilt →
      (ballzUpdateCharging room p now).turnState = BallzTurnState.aiming ∧
      (ballzUpdateCharging room p now).chargeStartTime = none ∧
      (ballzUpdateCharging room p now).chargeProgress = 0) ∧
    (∀ (room : BallzRoom) (p : BallzPlayer) (now t0 : ℕ),
      ballzInDeadZone room p.tilt = false →
      p.lastTilt = some p.tilt →
      p.chargeStartTime = some t0 →
      0 < room.chargeTime →
      room.chargeTime ≤ ((now - t0 : ℕ) : ℚ) →
      (ballzUpdateCharging room p now).turnState = BallzTurnState.launching ∧
      (ballzUpdateCharging room p now).launchStartTime = now) ∧
    (∀ (room : BallzRoom) (p : BallzPlayer) (now : ℕ) (cosA sinA : ℚ),
      0 < room.ballLaunchDelay →
      ((p.balls.length : ℚ) * room.ballLaunchDelay ≤
          ((now - p.launchStartTime : ℕ) : ℚ) →
        p.balls.length < p.ballCount →
        (ballzUpdateLaunching room p now cosA sinA).balls.length =
          p.balls.length + 1) ∧
      (((now - p.launchStartTime : ℕ) : ℚ) <
          (p.balls.length : ℚ) * room.ballLaunchDelay →
        (ballzUpdateLaunching room p now cosA sinA).balls = p.balls) ∧
      (p.ballCount ≤ p.balls.length →
        (ballzUpdateLaunching room p now cosA sinA).turnState =
          BallzTurnState.balls_in_flight)) := by
  refine ⟨?_, ?_, ?_, ?_⟩
  · intro piQ room p now hst hdz
    refine ⟨?_, ?_, ?_⟩
    · rcases hl : p.lastTilt with _ | lt0
      · simp [ballzUpdateAiming, hdz, hl, hst]
      · by_cases he : p.tilt = lt0
        · have hdz2 : ballzInDeadZone room lt0 = false := he ▸ hdz
          by_cases hc : p.chargeStartTime = none
          · simp [ballzUpdateAiming, hdz, hdz2, hl, he, hc, Option.isNone]
          · rcases hcs : p.chargeStartTime with _ | t0
            · exact absurd hcs hc
            · simp [ballzUpdateAiming, hdz, hdz2, hl, he, hcs, hst, Option.isNone]
        · have hne : ¬ (some lt0 = some p.tilt ∧ p.chargeStartTime = none) := by
            rintro ⟨h1, h2⟩
            exact he (Option.some_inj.mp h1).symm
          refine iff_of_false ?_ hne
          simp [ballzUpdateAiming, hdz, hl, he, hst]
    · intro hlt hcs
      have hl : p.lastTilt = some p.tilt := hlt
      simp [ballzUpdateAiming, hdz, hl, hcs, Option.isNone]
    · intro lt0 hl hne
      have he : ¬ p.tilt = lt0 := fun h => hne (h.symm)
      simp [ballzUpdateAiming, hdz, hl, he, hst]
  · intro room p now hdz hne
    simp [ballzUpdateCharging, hdz, hne]
  · intro room p now t0 hdz hl hcs hct hel
    have hprog : (1 : ℚ) ≤ min 1 (((now - t0 : ℕ) : ℚ) / room.chargeTime) := by
      refine le_min le_rfl ?_
      rw [le_div_iff₀ hct]
      linarith
    simp [ballzUpdateCharging, hdz, hcs, hl, hprog]
  · intro room p now cosA sinA hd
    refine ⟨?_, ?_, ?_⟩
    · intro hle hcount
      have hfloor : ((p.balls.length : ℤ) : ℚ) ≤
          ((now - p.launchStartTime : ℕ) : ℚ) / room.ballLaunchDelay := by
        push_cast
        rw [le_div_iff₀ hd]
        exact hle
      have hsh : (p.balls.length : ℤ) <
          ⌊((now - p.launchStartTime : ℕ) : ℚ) / room.ballLaunchDelay⌋ + 1 := by
        have := Int.le_floor.mpr hfloor
        omega
      have hpush : (decide ((p.balls.length : ℤ) <
            ⌊((now - p.launchStartTime : ℕ) : ℚ) / room.ballLaunchDelay⌋ + 1) &&
          decide (p.balls.length < p.ballCount)) = true := by
        rw [decide_eq_true hsh, decide_eq_true hcount]
        rfl
      simp only [ballzUpdateLaunching]
      rw [if_pos hpush, if_neg (not_le.mpr hcount)]
      simp
    · intro hlt
      have hfloor : ⌊((now - p.launchStartTime : ℕ) : ℚ) / room.ballLaunchDelay⌋ <
          (p.balls.length : ℤ) := by
        apply Int.floor_lt.mpr
        push_cast
        rw [div_lt_iff₀ hd]
        exact hlt
      have hpush : (decide ((p.balls.length : ℤ) <
            ⌊((now - p.launchStartTime : ℕ) : ℚ) / room.ballLaunchDelay⌋ + 1) &&
          decide (p.balls.length < p.ballCount)) = false := by
        have hno : ¬ (p.balls.length : ℤ) <
            ⌊((now - p.launchStartTime : ℕ) : ℚ) / room.ballLaunchDelay⌋ + 1 := by
          omega
        rw [decide_eq_false hno, Bool.false_and]
      simp only [ballzUpdateLaunching]
      rw [hpush, if_neg Bool.false_ne_true]
      split_ifs <;> simp
    · intro hcnt
      simp [ballzUpdateLaunching, hcnt]

/-- C8, witness: a player in `aiming` with tilt 1/2 (outside the default 5%
dead zone) whose previous sample is bit-identical and who has no pending
charge flips to `charging` on the next tick. -/
theorem c8_ballz_charge_machine_witness :
    (ballzUpdateAiming 3 ⟨1/20, 2000, 100, 3⟩
        ⟨1/2, some (1/2), 0, false, none, 0, BallzTurnState.aiming, 0, none, [], 3, false⟩
        5000).turnState = BallzTurnState.charging :=
  ((c8_ballz_charge_machine.1 3 ⟨1/20, 2000, 100, 3⟩
      ⟨1/2, some (1/2), 0, false, none, 0, BallzTurnState.aiming, 0, none, [], 3, false⟩
      5000 rfl (by norm_num [ballzInDeadZone])).1).mpr ⟨rfl, rfl⟩

/-! ## Pushers same-axis collision resolution (src/server.js:3343-3452)

The nested pair loop of `updatePushers` resolves an AABB overlap between two
players by axis case analysis; the same-axis cases compare RAW tilt values
(`p1.tilt > p2.tilt`) and push the loser to exactly one square-size
(`2 * halfSize`) from the winner; a field-bounds clamp runs afterwards. -/

inductive Axis where
  | X | Y
  deriving DecidableEq, Repr

structure PusherPlayer where
  x : ℚ
  y : ℚ
  tilt : ℚ
  axis : Axis
  deriving DecidableEq, Repr

/-- Body of the collision loop of `updatePushers` (src/server.js:3346-3443)
for one pair: AABB test, then push-out by axis case.  The bounding-box
corners are the consts computed before any mutation, as in the source. -/
def pushersResolvePair (halfSize : ℚ) (p1 p2 : PusherPlayer) :
    PusherPlayer × PusherPlayer :=
  let p1Left := p1.x - halfSize
  let p1Right := p1.x + halfSize
  let p1Top := p1.y - halfSize
  let p1Bottom := p1.y + halfSize
  let p2Left := p2.x - halfSize
  let p2Right := p2.x + halfSize
  let p2Top := p2.y - halfSize
  let p2Bottom := p2.y + halfSize
  let isColliding : Bool :=
    decide (p2Left < p1Right) && decide (p1Left < p2Right) &&
    decide (p2Top < p1Bottom) && decide (p1Top < p2Bottom)
  if isColliding then
    match p1.axis, p2.axis with
    | Axis.X, Axis.Y =>
        let q2 := if p1.x < p2.x then { p2 with x := p1Right + halfSize }
                  else { p2 with x := p1Left - halfSize }
        let q1 := if p2.y < p1.y then { p1 with y := p2Bottom + halfSize }
                  else { p1 with y := p2Top - halfSize }
        (q1, q2)
    | Axis.Y, Axis.X =>
        let q2 := if p1.y < p2.y then { p2 with y := p1Bottom + halfSize }
                  else { p2 with y := p1Top - halfSize }
        let q1 := if p2.x < p1.x then { p1 with x := p2Right + halfSize }
                  else { p1 with x := p2Left - halfSize }
        (q1, q2)
    | Axis.X, Axis.X =>
        if p2.tilt < p1.tilt then
          (p1, if p1.x < p2.x then { p2 with x := p1Right + halfSize }
               else { p2 with x := p1Left - halfSize })
        else
          (if p2.x < p1.x then { p1 with x := p2Right + halfSize }
           else { p1 with x := p2Left - halfSize }, p2)
    | Axis.Y, Axis.Y =>
        if p2.tilt < p1.tilt then
          (p1, if p1.y < p2.y then { p2 with y := p1Bottom + halfSize }
               else { p2 with y := p1Top - halfSize })
        else
          (if p2.y < p1.y then { p1 with y := p2Bottom + halfSize }
           else { p1 with y := p2Top - halfSize }, p2)
  else (p1, p2)

/-- The post-collision field-bounds clamp (src/server.js:3448-3451). -/
def pushersClampPlayer (margin fieldSize : ℚ) (p : PusherPlayer) : PusherPlayer :=
  { p with
    x := max margin (min (fieldSize - margin) p.x),
    y := max margin (min (fieldSize - margin) p.y) }

/-- C9, counterexample: two overlapping X-axis players with tilts −0.3 and
0.1.  Player 1 has the larger input MAGNITUDE (0.3 > 0.1), yet the code
compares raw tilts (−0.3 > 0.1 is false), so player 2 wins: player 2 is left
untouched and player 1 is displaced (to x = 105 − 25 = 80) — the opposite of
the claimed higher-magnitude-wins rule. -/
theorem c9_pushers_magnitude_counterexample :
    |(⟨130, 100, 1/10, Axis.X⟩ : PusherPlayer).tilt| <
      |(⟨100, 100, -(3/10), Axis.X⟩ : PusherPlayer).tilt| ∧
    (pushersResolvePair 25 ⟨100, 100, -(3/10), Axis.X⟩ ⟨130, 100, 1/10, Axis.X⟩).2 =
      ⟨130, 100, 1/10, Axis.X⟩ ∧
    (pushersResolvePair 25 ⟨100, 100, -(3/10), Axis.X⟩ ⟨130, 100, 1/10, Axis.X⟩).1.x =
      80 := by
  refine ⟨?_, ?_, ?_⟩
  · show |(1/10 : ℚ)| < |(-(3/10) : ℚ)|
    rw [abs_neg, abs_of_nonneg (by norm_num : (0:ℚ) ≤ 1/10),
      abs_of_nonneg (by norm_num : (0:ℚ) ≤ 3/10)]
    norm_num
  · norm_num [pushersResolvePair]
  · norm_num [pushersResolvePair]

/-- C9, amended: in the same-axis overlap case — both the X-axis and the
Y-axis branches — the winner is the player with the HIGHER RAW TILT — ties
favouring the second player of the pair — not the higher input magnitude:
the winner keeps its position and the loser is displaced along the shared
axis to exactly one square-size (2·halfSize) from the winner, its other
fields (including its cross-axis coordinate) untouched.  The
subsequent field-bounds clamp can then reintroduce overlap at the field
edge: with bounds [25, 175], a winner at x = 160 pushes the loser to 210,
which clamps back to 175, again within one square-size of the winner. -/
theorem c9_pushers_same_axis_amended :
    (∀ (halfSize : ℚ) (p1 p2 : PusherPlayer),
      0 < halfSize →
      p1.axis = Axis.X → p2.axis = Axis.X →
      p2.x - halfSize < p1.x + halfSize →
      p1.x - halfSize < p2.x + halfSize →
      p2.y - halfSize < p1.y + halfSize →
      p1.y - halfSize < p2.y + halfSize →
      (p2.tilt < p1.tilt →
        (pushersResolvePair halfSize p1 p2).1 = p1 ∧
        (pushersResolvePair halfSize p1 p2).2.y = p2.y ∧
        (pushersResolvePair halfSize p1 p2).2.tilt = p2.tilt ∧
        |(pushersResolvePair halfSize p1 p2).2.x - p1.x| = 2 * halfSize) ∧
      (p1.tilt ≤ p2.tilt →
        (pushersResolvePair halfSize p1 p2).2 = p2 ∧
        (pushersResolvePair halfSize p1 p2).1.y = p1.y ∧
        (pushersResolvePair halfSize p1 p2).1.tilt = p1.tilt ∧
        |(pushersResolvePair halfSize p1 p2).1.x - p2.x| = 2 * halfSize)) ∧
    (∀ (halfSize : ℚ) (p1 p2 : PusherPlayer),
      0 < halfSize →
      p1.axis = Axis.Y → p2.axis = Axis.Y →
      p2.x - halfSize < p1.x + halfSize →
      p1.x - halfSize < p2.x + halfSize →
      p2.y - halfSize < p1.y + halfSize →
      p1.y - halfSize < p2.y + halfSize →
      (p2.tilt < p1.tilt →
        (pushersResolvePair halfSize p1 p2).1 = p1 ∧
        (pushersResolvePair halfSize p1 p2).2.x = p2.x ∧
        (pushersResolvePair halfSize p1 p2).2.tilt = p2.tilt ∧
        |(pushersResolvePair halfSize p1 p2).2.y - p1.y| = 2 * halfSize) ∧
      (p1.tilt ≤ p2.tilt →
        (pushersResolvePair halfSize p1 p2).2 = p2 ∧
        (pushersResolvePair halfSize p1 p2).1.x = p1.x ∧
        (pushersResolvePair halfSize p1 p2).1.tilt = p1.tilt ∧
        |(pushersResolvePair halfSize p1 p2).1.y - p2.y| = 2 * halfSize)) ∧
    ((pushersClampPlayer 25 200
        ((pushersResolvePair 25 ⟨160, 100, 1, Axis.X⟩ ⟨170, 100, 0, Axis.X⟩).2)).x =
      175 ∧
      (pushersResolvePair 25 ⟨160, 100, 1, Axis.X⟩ ⟨170, 100, 0, Axis.X⟩).1.x = 160 ∧
      (175 : ℚ) - 160 < 2 * 25) := by
  refine ⟨?_, ?_, ?_⟩
  · intro halfSize p1 p2 hS ha1 ha2 h1 h2 h3 h4
    simp only [pushersResolvePair, ha1, ha2]
    rw [decide_eq_true h1, decide_eq_true h2, decide_eq_true h3, decide_eq_true h4]
    simp only [Bool.and_self, Bool.true_and, if_true]
    constructor
    · intro ht
      rw [if_pos ht]
      by_cases hx : p1.x < p2.x
      · rw [if_pos hx]
        refine ⟨rfl, rfl, rfl, ?_⟩
        show |p1.x + halfSize + halfSize - p1.x| = 2 * halfSize
        have e : p1.x + halfSize + halfSize - p1.x = 2 * halfSize := by ring
        rw [e, abs_of_nonneg (by linarith)]
      · rw [if_neg hx]
        refine ⟨rfl, rfl, rfl, ?_⟩
        show |p1.x - halfSize - halfSize - p1.x| = 2 * halfSize
        have e : p1.x - halfSize - halfSize - p1.x = -(2 * halfSize) := by ring
        rw [e, abs_neg, abs_of_nonneg (by linarith)]
    · intro ht
      rw [if_neg (not_lt.mpr ht)]
      by_cases hx : p2.x < p1.x
      · rw [if_pos hx]
        refine ⟨rfl, rfl, rfl, ?_⟩
        show |p2.x + halfSize + halfSize - p2.x| = 2 * halfSize
        have e : p2.x + halfSize + halfSize - p2.x = 2 * halfSize := by ring
        rw [e, abs_of_nonneg (by linarith)]
      · rw [if_neg hx]
        refine ⟨rfl, rfl, rfl, ?_⟩
        show |p2.x - halfSize - halfSize - p2.x| = 2 * halfSize
        have e : p2.x - halfSize - halfSize - p2.x = -(2 * halfSize) := by ring
        rw [e, abs_neg, abs_of_nonneg (by linarith)]
  · intro halfSize p1 p2 hS ha1 ha2 h1 h2 h3 h4
    simp only [pushersResolvePair, ha1, ha2]
    rw [decide_eq_true h1, decide_eq_true h2, decide_eq_true h3, decide_eq_true h4]
    simp only [Bool.and_self, Bool.true_and, if_true]
    constructor
    · intro ht
      rw [if_pos ht]
      by_cases hy : p1.y < p2.y
      · rw [if_pos hy]
        refine ⟨rfl, rfl, rfl, ?_⟩
        show |p1.y + halfSize + halfSize - p1.y| = 2 * halfSize
        have e : p1.y + halfSize + halfSize - p1.y = 2 * halfSize := by ring
        rw [e, abs_of_nonneg (by linarith)]
      · rw [if_neg hy]
        refine ⟨rfl, rfl, rfl, ?_⟩
        show |p1.y - halfSize - halfSize - p1.y| = 2 * halfSize
        have e : p1.y - halfSize - halfSize - p1.y = -(2 * halfSize) := by ring
        rw [e, abs_neg, abs_of_nonneg (by linarith)]
    · intro ht
      rw [if_neg (not_lt.mpr ht)]
      by_cases hy : p2.y < p1.y
      · rw [if_pos hy]
        refine ⟨rfl, rfl, rfl, ?_⟩
        show |p2.y + halfSize + halfSize - p2.y| = 2 * halfSize
        have e : p2.y + halfSize + halfSize - p2.y = 2 * halfSize := by ring
        rw [e, abs_of_nonneg (by linarith)]
      · rw [if_neg hy]
        refine ⟨rfl, rfl, rfl, ?_⟩
        show |p2.y - halfSize - halfSize - p2.y| = 2 * halfSize
        have e : p2.y - halfSize - halfSize - p2.y = -(2 * halfSize) := by ring
        rw [e, abs_neg, abs_of_nonneg (by linarith)]
  · refine ⟨?_, ?_, by norm_num⟩
    · norm_num [pushersResolvePair, pushersClampPlayer, min_def, max_def]
    · norm_num [pushersResolvePair]

/-- C9, witness: X-axis players with tilts 1/2 and 1/10 overlapping by 20:
the higher-raw-tilt player 1 keeps its position and player 2 is pushed to
exactly 50 (= one square-size) away. -/
theorem c9_pushers_same_axis_amended_witness :
    (pushersResolvePair 25 ⟨100, 100, 1/2, Axis.X⟩ ⟨130, 100, 1/10, Axis.X⟩).1 =
      ⟨100, 100, 1/2, Axis.X⟩ ∧
    |(pushersResolvePair 25 ⟨100, 100, 1/2, Axis.X⟩ ⟨130, 100, 1/10, Axis.X⟩).2.x -
      100| = 2 * 25 :=
  let h := (c9_pushers_same_axis_amended.1 25 ⟨100, 100, 1/2, Axis.X⟩
      ⟨130, 100, 1/10, Axis.X⟩ (by norm_num) rfl rfl
      (by norm_num : (130:ℚ) - 25 < 100 + 25)
      (by norm_num : (100:ℚ) - 25 < 130 + 25)
      (by norm_num : (100:ℚ) - 25 < 100 + 25)
      (by norm_num : (100:ℚ) - 25 < 100 + 25)).1
    (by norm_num : (1/10:ℚ) < 1/2)
  ⟨h.1, h.2.2.2⟩

end Kinemon
